import Mathlib

/-
Verification development for the agent execution core of the
run-bigpig/llm-agent repository.

The Go sources are shallowly embedded as Lean definitions:

* `Multitenancy` models pkg/multitenancy/context.go,
* `Memory` models pkg/memory/conversation_buffer.go and
  pkg/memory/redis_memory.go (the Redis store itself becomes an
  association list from keys to message lists),
* `ExecutionPlanPkg` models the plan executor of pkg/executionplan,
* `OpenAI` models the tool-call loop of the OpenAI client
  (GenerateWithTools), with the worker completion order made an explicit
  parameter so that concurrent fan-in can be reasoned about,
* `AgentPkg` models Agent.Run of pkg/agent with the external
  collaborators (LLM, plan generator, guardrails) supplied as function
  environments and with observable effects (memory writes, LLM call
  count, plan-action dispatch) recorded in the returned value,
* `Orchestration` models pkg/orchestration/code_orchestrator.go under a
  sequential schedule that is a legitimate linearization of the Go
  program: each spawned worker runs to completion atomically and the
  coordinator processes completion signals in FIFO order.

Contexts are modelled as the pair of the two key-addressable slots the
embedded code reads (organization id and conversation id).
-/

namespace LlmAgent

/-- Message as stored by the memory backends: role plus content. -/
structure Message where
  role : String
  content : String
deriving Repr, DecidableEq

/-- Request context restricted to the two slots the embedded code reads:
the organization (tenant) id and the conversation id. -/
structure Ctx where
  orgId : Option String
  conversationId : Option String
deriving Repr, DecidableEq

/-- Lookup in an association list with string keys; models reading from a
Go map. -/
def lookupAssoc {α : Type} : List (String × α) → String → Option α
  | [], _ => none
  | p :: rest, k => if p.fst = k then some p.snd else lookupAssoc rest k

/-- Insertion into an association list with string keys; models Go map
assignment (an existing binding for the key is replaced). -/
def assocSet {α : Type} : List (String × α) → String → α → List (String × α)
  | [], k, v => [(k, v)]
  | p :: rest, k, v =>
    if p.fst = k then (k, v) :: rest else p :: assocSet rest k v

theorem lookupAssoc_assocSet_self {α : Type} (l : List (String × α))
    (k : String) (v : α) : lookupAssoc (assocSet l k v) k = some v := by
  induction l with
  | nil => simp [assocSet, lookupAssoc]
  | cons p rest ih =>
    by_cases hp : p.fst = k
    · simp [assocSet, hp, lookupAssoc]
    · simp [assocSet, hp, lookupAssoc, ih]

theorem lookupAssoc_assocSet_ne {α : Type} (l : List (String × α))
    (k k2 : String) (v : α) (hne : k2 ≠ k) :
    lookupAssoc (assocSet l k v) k2 = lookupAssoc l k2 := by
  have hkk : ¬ k = k2 := fun hx => hne hx.symm
  induction l with
  | nil =>
    simp [assocSet, lookupAssoc, hkk]
  | cons p rest ih =>
    by_cases hp : p.fst = k
    · have hp2 : ¬ p.fst = k2 := by rw [hp]; exact hkk
      simp [assocSet, hp, lookupAssoc, hp2, hkk]
    · simp only [assocSet, if_neg hp]
      by_cases hq : p.fst = k2
      · simp [lookupAssoc, hq]
      · simp [lookupAssoc, hq, ih]

namespace Multitenancy

/-- GetOrgID from pkg/multitenancy/context.go: the organization id from
the context; an absent or empty id yields the ErrNoOrgID error. -/
def getOrgID (ctx : Ctx) : Except String String :=
  match ctx.orgId with
  | some s =>
    if s = "" then .error "no organization ID found in context" else .ok s
  | none => .error "no organization ID found in context"

end Multitenancy

namespace Memory

/-- getConversationID helper of pkg/memory/conversation_buffer.go: reads
the organization id and the conversation id from the context and returns
the combination orgID:conversationID. -/
def getConversationID (ctx : Ctx) : Except String String :=
  match Multitenancy.getOrgID ctx with
  | .error e => .error ("organization ID not found in context: " ++ e)
  | .ok orgID =>
    match ctx.conversationId with
    | none => .error "conversation ID not found in context"
    | some cid => .ok (orgID ++ ":" ++ cid)

/-- ConversationBuffer of pkg/memory/conversation_buffer.go: a map from
the combined conversation key to the stored messages, plus the maximum
number of messages kept per conversation. -/
structure ConversationBuffer where
  messages : List (String × List Message)
  maxSize : Int
deriving Repr, DecidableEq

/-- NewConversationBuffer: empty buffer with the default maximum of 100
messages per conversation. -/
def newConversationBuffer : ConversationBuffer :=
  { messages := [], maxSize := 100 }

/-- Messages stored for a conversation key (a missing entry reads as the
empty list, as a Go map does). -/
def bufferListOf (c : ConversationBuffer) (key : String) : List Message :=
  (lookupAssoc c.messages key).getD []

/-- ConversationBuffer.AddMessage: append the message to the
conversation list and, when a positive maxSize is exceeded, keep only the
last maxSize messages. -/
def addMessage (c : ConversationBuffer) (ctx : Ctx) (m : Message) :
    Except String ConversationBuffer :=
  match getConversationID ctx with
  | .error e => .error e
  | .ok conversationID =>
    let msgs := bufferListOf c conversationID ++ [m]
    let msgs :=
      if c.maxSize > 0 ∧ (msgs.length : Int) > c.maxSize then
        msgs.drop (msgs.length - c.maxSize.toNat)
      else
        msgs
    .ok { c with messages := assocSet c.messages conversationID msgs }

/-- RedisMemory of pkg/memory/redis_memory.go: the configured key prefix
and the key-value store itself, modelled as a map from keys to message
lists. -/
structure RedisMemory where
  keyPrefix : String
  store : List (String × List Message)
deriving Repr, DecidableEq

/-- NewRedisMemory with no options: default key prefix agent:memory:
and an empty store. -/
def newRedisMemory : RedisMemory :=
  { keyPrefix := "agent:memory:", store := [] }

/-- Key computation repeated at the top of RedisMemory.AddMessage,
GetMessages and Clear: conversationID is obtained from getConversationID
(which already combines orgID and conversation id), orgID is read again
from the context with a default fallback, and the key is
prefix + orgID + colon + conversationID. -/
def redisKey (r : RedisMemory) (ctx : Ctx) : Except String String :=
  match getConversationID ctx with
  | .error e => .error e
  | .ok conversationID =>
    let orgID :=
      match Multitenancy.getOrgID ctx with
      | .ok id => id
      | .error _ => "default"
    .ok (r.keyPrefix ++ orgID ++ ":" ++ conversationID)

/-- Result of a Redis memory operation, recording the storage key that
was used alongside the updated store or the retrieved messages. -/
structure RedisOpResult (α : Type) where
  usedKey : String
  value : α
deriving Repr, DecidableEq

/-- RedisMemory.AddMessage (key construction and the RPush to the list at
that key; serialization, size checks and retries are not modelled as they
do not affect the key or the stored order). -/
def redisAddMessage (r : RedisMemory) (ctx : Ctx) (m : Message) :
    Except String (RedisOpResult RedisMemory) :=
  match redisKey r ctx with
  | .error e => .error e
  | .ok key =>
    .ok { usedKey := key,
          value := { r with
            store := assocSet r.store key ((lookupAssoc r.store key).getD [] ++ [m]) } }

/-- RedisMemory.GetMessages (key construction and the LRange over the
list at that key; role filtering and limits are not modelled). -/
def redisGetMessages (r : RedisMemory) (ctx : Ctx) :
    Except String (RedisOpResult (List Message)) :=
  match getConversationID ctx with
  | .error e => .error ("failed to get conversation ID: " ++ e)
  | .ok conversationID =>
    let orgID :=
      match Multitenancy.getOrgID ctx with
      | .ok id => id
      | .error _ => "default"
    let key := r.keyPrefix ++ orgID ++ ":" ++ conversationID
    .ok { usedKey := key, value := (lookupAssoc r.store key).getD [] }

/-- RedisMemory.Clear (key construction and the deletion of that key). -/
def redisClear (r : RedisMemory) (ctx : Ctx) :
    Except String (RedisOpResult RedisMemory) :=
  match getConversationID ctx with
  | .error e => .error ("failed to get conversation ID: " ++ e)
  | .ok conversationID =>
    let orgID :=
      match Multitenancy.getOrgID ctx with
      | .ok id => id
      | .error _ => "default"
    let key := r.keyPrefix ++ orgID ++ ":" ++ conversationID
    .ok { usedKey := key,
          value := { r with store := r.store.filter (fun p => p.fst ≠ key) } }

end Memory

namespace ExecutionPlanPkg

/-- Execution plan lifecycle statuses of pkg/executionplan (StatusDraft,
StatusAwaitingApproval, StatusApproved, StatusExecuting, StatusCompleted,
StatusFailed, StatusCancelled as used by the executor and the agent). -/
inductive PlanStatus
  | draft
  | awaitingApproval
  | approved
  | executing
  | completed
  | failed
  | cancelled
deriving Repr, DecidableEq

/-- ExecutionStep: one step of an execution plan (the parameters map is
not read by the executor and is omitted). -/
structure ExecutionStep where
  toolName : String
  description : String
  input : String
deriving Repr, DecidableEq

/-- ExecutionPlan: the plan entity with the fields the executor and the
agent read. -/
structure ExecutionPlan where
  taskId : String
  description : String
  steps : List ExecutionStep
  userApproved : Bool
  status : PlanStatus
deriving Repr, DecidableEq

/-- A tool as seen by the executor: its registered name and its Execute
function. -/
structure Tool where
  name : String
  exec : String → Except String String

/-- Lookup in the executor tool map built by NewExecutor (a Go map keyed
by tool name; on duplicate names the last registration wins). -/
def lookupTool (tools : List Tool) (n : String) : Option Tool :=
  tools.reverse.find? (fun t => t.name = n)

/-- The step loop of Executor.ExecutePlan: resolve each tool by name and
run it with the step input; the step counter i is 1-based. The returned
pair carries the step results (or the first error) together with the list
of tool Execute invocations that were made. -/
def runSteps (tools : List Tool) :
    List ExecutionStep → Nat → List String → List (String × String) →
    Except String (List String) × List (String × String)
  | [], _, results, calls => (.ok results, calls)
  | step :: rest, i, results, calls =>
    match lookupTool tools step.toolName with
    | none => (.error ("unknown tool: " ++ step.toolName), calls)
    | some tool =>
      match tool.exec step.input with
      | .error e =>
        (.error ("failed to execute step " ++ toString i ++ ": " ++ e),
         calls ++ [(step.toolName, step.input)])
      | .ok result =>
        runSteps tools rest (i + 1)
          (results ++
            ["Step " ++ toString i ++ " (" ++ step.description ++ "): " ++ result])
          (calls ++ [(step.toolName, step.input)])

/-- Observable outcome of Executor.ExecutePlan: the final plan value, the
returned result or error, the tool Execute invocations made, and the
sequence of status assignments performed on the plan (in order). -/
structure ExecOutcome where
  plan : ExecutionPlan
  output : Except String String
  calls : List (String × String)
  statusWrites : List PlanStatus

/-- Executor.ExecutePlan: refuses a plan whose UserApproved is false,
otherwise sets the status to Executing, runs the steps in order, and sets
the status to Failed on the first failure or to Completed when all steps
succeed. -/
def executePlan (tools : List Tool) (plan : ExecutionPlan) : ExecOutcome :=
  if plan.userApproved = false then
    { plan := plan,
      output := .error "execution plan has not been approved by the user",
      calls := [],
      statusWrites := [] }
  else
    match runSteps tools plan.steps 1 [] [] with
    | (.error e, calls) =>
      { plan := { plan with status := .failed },
        output := .error e,
        calls := calls,
        statusWrites := [.executing, .failed] }
    | (.ok results, calls) =>
      { plan := { plan with status := .completed },
        output := .ok ("Execution plan completed successfully!\n\n" ++
          String.intercalate "\n\n" results),
        calls := calls,
        statusWrites := [.executing, .completed] }

/-- Executor.CancelPlan: sets the plan status to Cancelled. -/
def cancelPlan (plan : ExecutionPlan) : ExecutionPlan :=
  { plan with status := .cancelled }

/-- Executor.GetPlanStatus: returns the plan status. -/
def getPlanStatus (plan : ExecutionPlan) : PlanStatus := plan.status

/-- A calculator tool used as a concrete example. -/
def calcTool : Tool := { name := "calculator", exec := fun _ => .ok "42" }

/-- A plan that is already in the terminal Completed status but still
carries UserApproved = true. -/
def completedPlan : ExecutionPlan :=
  { taskId := "task-1"
    description := "demo"
    steps := [{ toolName := "calculator", description := "multiply", input := "6*7" }]
    userApproved := true
    status := .completed }

/-- A plan that has not been approved by the user. -/
def unapprovedPlan : ExecutionPlan :=
  { taskId := "task-2"
    description := "demo"
    steps := [{ toolName := "calculator", description := "multiply", input := "6*7" }]
    userApproved := false
    status := .approved }

end ExecutionPlanPkg

end LlmAgent

namespace LlmAgent

open ExecutionPlanPkg Memory

/-- C2: a plan whose UserApproved field is false is rejected by
Executor.ExecutePlan with an error; no tool Execute is invoked, no status
is assigned (in particular the plan never enters Executing), and the plan
is returned unchanged. -/
theorem executePlan_unapproved_rejected (tools : List Tool)
    (plan : ExecutionPlan) (h : plan.userApproved = false) :
    (executePlan tools plan).output =
      .error "execution plan has not been approved by the user" ∧
    (executePlan tools plan).calls = [] ∧
    (executePlan tools plan).statusWrites = [] ∧
    (executePlan tools plan).plan = plan := by
  simp [executePlan, h]

/-- Witness for C2 at a concrete unapproved plan. -/
theorem executePlan_unapproved_rejected_witness :
    unapprovedPlan.userApproved = false ∧
    (executePlan [calcTool] unapprovedPlan).output =
      .error "execution plan has not been approved by the user" ∧
    (executePlan [calcTool] unapprovedPlan).calls = [] ∧
    (executePlan [calcTool] unapprovedPlan).statusWrites = [] ∧
    (executePlan [calcTool] unapprovedPlan).plan = unapprovedPlan := by
  have h := executePlan_unapproved_rejected [calcTool] unapprovedPlan rfl
  exact ⟨rfl, h.1, h.2.1, h.2.2.1, h.2.2.2⟩

/-- C3 counterexample: Executor.ExecutePlan applied to a plan already in
the terminal Completed status (with UserApproved = true) does not return
an IllegalState error: it re-executes the steps (the tool Execute is
invoked) and returns a success result; Executor.CancelPlan moves even a
terminal Completed plan to Cancelled. -/
theorem executePlan_terminal_reexecuted :
    (executePlan [calcTool] completedPlan).calls = [("calculator", "6*7")] ∧
    (executePlan [calcTool] completedPlan).output =
      .ok "Execution plan completed successfully!\n\nStep 1 (multiply): 42" ∧
    (cancelPlan completedPlan).status = PlanStatus.cancelled := by
  refine ⟨by decide, rfl, by decide⟩

/-- C3 amended: ExecutePlan guards only on UserApproved and its behavior
(output, tool invocations, status assignments) is independent of the
current plan status, so a terminal plan is treated like any other;
CancelPlan unconditionally sets the status to Cancelled, including on
terminal plans. -/
theorem executePlan_ignores_initial_status (tools : List Tool)
    (plan : ExecutionPlan) (s : PlanStatus) :
    (executePlan tools { plan with status := s }).output =
      (executePlan tools plan).output ∧
    (executePlan tools { plan with status := s }).calls =
      (executePlan tools plan).calls ∧
    (executePlan tools { plan with status := s }).statusWrites =
      (executePlan tools plan).statusWrites ∧
    (cancelPlan { plan with status := s }).status = PlanStatus.cancelled := by
  cases hb : plan.userApproved with
  | false =>
    simp [executePlan, hb, cancelPlan]
  | true =>
    simp only [executePlan, hb]
    rcases hr : runSteps tools plan.steps 1 [] [] with ⟨o, cs⟩
    cases o <;> simp [cancelPlan]

/-- Retrieving the list just stored for a key yields that list. -/
theorem bufferListOf_assocSet (c : ConversationBuffer) (cid : String)
    (l : List Message) :
    Memory.bufferListOf { c with messages := assocSet c.messages cid l } cid = l := by
  unfold Memory.bufferListOf
  rw [lookupAssoc_assocSet_self]
  rfl

/-- C10: with a positive maxSize, every successful AddMessage leaves the
conversation list equal to the most recent messages of the appended
sequence (a suffix of the old list plus the new message, obtained by
dropping the oldest entries) and its length never exceeds maxSize. -/
theorem conversationBuffer_addMessage_trims (c : ConversationBuffer)
    (ctx : Ctx) (m : Message) (cid : String)
    (hmax : 0 < c.maxSize)
    (hctx : Memory.getConversationID ctx = .ok cid) :
    ∃ c2, Memory.addMessage c ctx m = .ok c2 ∧
      Memory.bufferListOf c2 cid =
        (Memory.bufferListOf c cid ++ [m]).drop
          ((Memory.bufferListOf c cid ++ [m]).length - c.maxSize.toNat) ∧
      (Memory.bufferListOf c2 cid).length ≤ c.maxSize.toNat ∧
      (Memory.bufferListOf c2 cid).IsSuffix (Memory.bufferListOf c cid ++ [m]) := by
  have hms : c.maxSize = (c.maxSize.toNat : Int) :=
    (Int.toNat_of_nonneg (le_of_lt hmax)).symm
  unfold Memory.addMessage
  rw [hctx]
  refine ⟨_, rfl, ?_⟩
  by_cases hcond : c.maxSize > 0 ∧
      (((Memory.bufferListOf c cid ++ [m]).length : Int) > c.maxSize)
  · rw [if_pos hcond, bufferListOf_assocSet]
    have hlen : c.maxSize.toNat < (Memory.bufferListOf c cid ++ [m]).length := by
      have := hcond.2
      rw [hms] at this
      exact_mod_cast this
    refine ⟨rfl, ?_, List.drop_suffix _ _⟩
    rw [List.length_drop]
    omega
  · rw [if_neg hcond, bufferListOf_assocSet]
    have hle : (Memory.bufferListOf c cid ++ [m]).length ≤ c.maxSize.toNat := by
      rcases not_and_or.mp hcond with h | h
      · exact absurd hmax h
      · have : ((Memory.bufferListOf c cid ++ [m]).length : Int) ≤ c.maxSize :=
          le_of_not_lt h
        rw [hms] at this
        exact_mod_cast this
    have hz : (Memory.bufferListOf c cid ++ [m]).length - c.maxSize.toNat = 0 := by
      omega
    rw [hz, List.drop_zero]
    exact ⟨rfl, hle, List.suffix_refl _⟩

/-- A concrete buffer holding two messages with maxSize 2. -/
def smallBuffer : ConversationBuffer :=
  { messages := [("acme:c1", [⟨"user", "m1"⟩, ⟨"assistant", "m2"⟩])]
    maxSize := 2 }

/-- Witness for C10: adding a third message to a full two-message buffer
keeps only the two most recent messages. -/
theorem conversationBuffer_addMessage_trims_witness :
    0 < smallBuffer.maxSize ∧
    Memory.getConversationID ⟨some "acme", some "c1"⟩ = .ok "acme:c1" ∧
    ∃ c2, Memory.addMessage smallBuffer ⟨some "acme", some "c1"⟩
        (Message.mk "user" "m3") = .ok c2 ∧
      Memory.bufferListOf c2 "acme:c1" =
        (Memory.bufferListOf smallBuffer "acme:c1" ++ [(Message.mk "user" "m3")]).drop
          ((Memory.bufferListOf smallBuffer "acme:c1" ++
            [(Message.mk "user" "m3")]).length - smallBuffer.maxSize.toNat) ∧
      (Memory.bufferListOf c2 "acme:c1").length ≤ smallBuffer.maxSize.toNat ∧
      (Memory.bufferListOf c2 "acme:c1").IsSuffix
        (Memory.bufferListOf smallBuffer "acme:c1" ++ [(Message.mk "user" "m3")]) :=
  ⟨by decide, rfl,
   conversationBuffer_addMessage_trims smallBuffer ⟨some "acme", some "c1"⟩
     (Message.mk "user" "m3") "acme:c1" (by decide) rfl⟩

/-- C8 counterexample: on the key-value (Redis) backend, with tenant id
acme and conversation id c1 in the context and the default prefix, the
storage key actually used is agent:memory:acme:acme:c1 (the tenant id
appears twice), which differs from the documented
prefix-tenant-colon-conversation key. -/
theorem redis_key_duplicates_tenant :
    (Memory.redisAddMessage Memory.newRedisMemory ⟨some "acme", some "c1"⟩
        ⟨"user", "hi"⟩).map (fun x => x.usedKey) =
      .ok "agent:memory:acme:acme:c1" ∧
    "agent:memory:acme:acme:c1" ≠
      "agent:memory:" ++ "acme" ++ ":" ++ "c1" :=
  ⟨rfl, by decide⟩

/-- C8 amended: for every memory operation (AddMessage, GetMessages,
Clear) on the key-value backend with a non-empty tenant id T and a
conversation id C in the context, the storage key equals
prefix ++ T ++ colon ++ T ++ colon ++ C: the tenant id appears twice,
because getConversationID already returns the combined T:C pair and the
Redis layer prepends the tenant id again. -/
theorem redis_key_tenant_twice (r : Memory.RedisMemory) (t c : String)
    (m : Message) (ht : t ≠ "") :
    (Memory.redisAddMessage r ⟨some t, some c⟩ m).map (fun x => x.usedKey) =
      .ok (r.keyPrefix ++ t ++ ":" ++ t ++ ":" ++ c) ∧
    (Memory.redisGetMessages r ⟨some t, some c⟩).map (fun x => x.usedKey) =
      .ok (r.keyPrefix ++ t ++ ":" ++ t ++ ":" ++ c) ∧
    (Memory.redisClear r ⟨some t, some c⟩).map (fun x => x.usedKey) =
      .ok (r.keyPrefix ++ t ++ ":" ++ t ++ ":" ++ c) := by
  have horg : Multitenancy.getOrgID ⟨some t, some c⟩ = .ok t := by
    simp [Multitenancy.getOrgID, ht]
  have hconv : Memory.getConversationID ⟨some t, some c⟩ =
      .ok (t ++ ":" ++ c) := by
    simp [Memory.getConversationID, horg]
  refine ⟨?_, ?_, ?_⟩ <;>
    simp [Memory.redisAddMessage, Memory.redisGetMessages, Memory.redisClear,
      Memory.redisKey, hconv, horg, Except.map, String.append_assoc]

end LlmAgent

namespace LlmAgent.OpenAI

open LlmAgent.ExecutionPlanPkg

/-- Chat message of the OpenAI conversation, with the tool linkage
fields used by the tool-call loop. -/
structure ChatMessage where
  role : String
  content : String
  name : String
  toolCallId : String
deriving Repr, DecidableEq

/-- One entry of the tool_uses array inside the wrapped parallel tool
call: the recipient tool name and the parameters, kept in their
marshalled JSON form (the Go code unmarshals and re-marshals them; that
round trip is modelled as the identity on the stored string). -/
structure ToolUse where
  recipientName : String
  parametersJson : String
deriving Repr, DecidableEq

/-- A tool call requested by the provider: id, function name and the
arguments string. -/
structure ToolCall where
  id : String
  name : String
  arguments : String
deriving Repr, DecidableEq

/-- Tool resolution in GenerateWithTools: a linear scan returning the
first tool whose Name matches. -/
def findTool (tools : List Tool) (n : String) : Option Tool :=
  tools.find? (fun t => t.name = n)

/-- Body of one concurrent worker of the wrapped parallel batch: resolve
the recipient tool and invoke Execute on the marshalled parameters. -/
def parallelWorker (tools : List Tool) (tu : ToolUse) : Except String String :=
  match findTool tools tu.recipientName with
  | none => .error ("tool not found: " ++ tu.recipientName)
  | some t => t.exec tu.parametersJson

/-- The fan-in loop over the result channel: worker results arrive in
completion order (the order list of indices); the first error aborts the
collection, otherwise each result is stored in the slot of its original
index. -/
def collectParallelResults (results : List (Except String String)) :
    List Nat → List String → Except String (List String)
  | [], slots => .ok slots
  | i :: rest, slots =>
    match results.getD i (.error "missing result") with
    | .error e => .error ("error executing tool: " ++ e)
    | .ok r => collectParallelResults results rest (slots.set i r)

/-- The wrapped parallel branch of GenerateWithTools: execute the
sub-calls concurrently (the completion order is the order parameter),
join the slot array in original index order with newlines. -/
def parallelToolUse (tools : List Tool) (uses : List ToolUse)
    (order : List Nat) : Except String String :=
  match collectParallelResults (uses.map (parallelWorker tools)) order
      (List.replicate uses.length "") with
  | .error e => .error e
  | .ok slots => .ok (String.intercalate "\n" slots)

/-- Renaming applied before the loop: the provider name
multi_tool_use.parallel is replaced by parallel_tool_use. -/
def normalizeToolCallName (c : ToolCall) : ToolCall :=
  if c.name = "multi_tool_use.parallel" then
    { c with name := "parallel_tool_use" }
  else c

/-- The per-tool-call loop of GenerateWithTools. For the wrapped parallel
call: an unparseable tool_uses payload is logged and skipped, an error
from any worker aborts the turn, otherwise one role=tool message carrying
the joined results is appended. For an individual call: an unknown (or
empty-named) tool aborts the turn, an Execute error is appended as a
role=tool message with an Error: prefix and the loop continues, a
successful result is appended as a role=tool message. parseToolUses
stands for the JSON unmarshalling of the tool_uses wrapper and orders
supplies the worker completion order of each parallel batch in turn. -/
def processToolCalls (tools : List Tool)
    (parseToolUses : String → Option (List ToolUse)) :
    List (List Nat) → List ToolCall → List ChatMessage →
    Except String (List ChatMessage)
  | _, [], messages => .ok messages
  | orders, call :: rest, messages =>
    if call.name = "parallel_tool_use" then
      match parseToolUses call.arguments with
      | none => processToolCalls tools parseToolUses orders rest messages
      | some toolUses =>
        let order := orders.headD (List.range toolUses.length)
        match parallelToolUse tools toolUses order with
        | .error e => .error e
        | .ok content =>
          processToolCalls tools parseToolUses (orders.drop 1) rest
            (messages ++ [ChatMessage.mk "tool" content "parallel_tool_use" call.id])
    else
      match findTool tools call.name with
      | none => .error ("tool not found: " ++ call.name)
      | some t =>
        if t.name = "" then .error ("tool not found: " ++ call.name)
        else
          match t.exec call.arguments with
          | .error e =>
            processToolCalls tools parseToolUses orders rest
              (messages ++ [ChatMessage.mk "tool" ("Error: " ++ e) t.name call.id])
          | .ok result =>
            processToolCalls tools parseToolUses orders rest
              (messages ++ [ChatMessage.mk "tool" result t.name call.id])

/-- The tail of GenerateWithTools once the provider has requested tool
calls: normalize the call names, run the loop, then request the final
completion on the extended conversation and return its trimmed text. -/
def runToolCallsTurn (tools : List Tool)
    (parseToolUses : String → Option (List ToolUse))
    (orders : List (List Nat))
    (finalResponse : List ChatMessage → Except String String)
    (initMessages : List ChatMessage) (calls : List ToolCall) :
    Except String String :=
  match processToolCalls tools parseToolUses orders
      (calls.map normalizeToolCallName) initMessages with
  | .error e => .error e
  | .ok msgs =>
    match finalResponse msgs with
    | .error e => .error ("failed to create final chat completion: " ++ e)
    | .ok content => .ok content.trim

end LlmAgent.OpenAI

namespace LlmAgent

open ExecutionPlanPkg OpenAI

/-- When every index written by the fold is in range, reading a slot
yields the written value for indices in the order list and the original
slot content otherwise. -/
theorem foldl_set_getD (v : Nat → String) :
    ∀ (order : List Nat) (slots : List String),
      (∀ i ∈ order, i < slots.length) →
      ∀ j, (order.foldl (fun s i => s.set i (v i)) slots).getD j "" =
        if j ∈ order then v j else slots.getD j "" := by
  intro order
  induction order with
  | nil => intro slots hlt j; simp
  | cons i rest ih =>
    intro slots hlt j
    have hi : i < slots.length := hlt i (List.mem_cons_self i rest)
    have hlen : (slots.set i (v i)).length = slots.length :=
      List.length_set slots i (v i)
    simp only [List.foldl_cons]
    rw [ih (slots.set i (v i))
      (fun a ha => by rw [hlen]; exact hlt a (List.mem_cons_of_mem i ha)) j]
    by_cases hj : j ∈ rest
    · simp [hj, List.mem_cons]
    · by_cases hji : j = i
      · subst hji
        simp only [hj, if_false, List.mem_cons, true_or, if_true]
        rw [List.getD_eq_getElem?_getD, List.getElem?_set_self hi]
        rfl
      · have hcons : ¬ (j = i ∨ j ∈ rest) := by
          rintro (h | h)
          · exact hji h
          · exact hj h
        simp only [List.mem_cons, hcons, if_false]
        rw [if_neg hj, List.getD_eq_getElem?_getD,
          List.getElem?_set_ne (fun h => hji h.symm),
          ← List.getD_eq_getElem?_getD]

/-- The fold of slot writes preserves the slot array length. -/
theorem foldl_set_length (v : Nat → String) :
    ∀ (order : List Nat) (slots : List String),
      (order.foldl (fun s i => s.set i (v i)) slots).length = slots.length := by
  intro order
  induction order with
  | nil => intro slots; rfl
  | cons i rest ih =>
    intro slots
    simp only [List.foldl_cons]
    rw [ih, List.length_set]

/-- When every result taken from the channel is a success, the fan-in
loop never aborts and computes the fold of slot writes. -/
theorem collectParallel_all_ok (rs : List String) :
    ∀ (order : List Nat) (slots : List String),
      (∀ i ∈ order, i < rs.length) →
      collectParallelResults (rs.map Except.ok) order slots =
        .ok (order.foldl (fun s i => s.set i (rs.getD i "")) slots) := by
  intro order
  induction order with
  | nil => intro slots h; rfl
  | cons i rest ih =>
    intro slots h
    have hi : i < rs.length := h i (List.mem_cons_self i rest)
    have hres : (rs.map Except.ok).getD i (.error "missing result") =
        .ok (rs.getD i "") := by
      rw [List.getD_eq_getElem?_getD, List.getElem?_map,
        List.getElem?_eq_getElem hi, List.getD_eq_getElem?_getD,
        List.getElem?_eq_getElem hi]
      rfl
    rw [collectParallelResults, hres]
    simp only [List.foldl_cons]
    exact ih (slots.set i (rs.getD i "")) (fun a ha => h a (List.mem_cons_of_mem i ha))

/-- The fan-in loop aborts with the first error taken from the channel:
if every earlier completion is a success and the completion at index i is
an error, the collection returns that error. -/
theorem collectParallel_first_error (results : List (Except String String))
    (i : Nat) (post : List Nat) (e : String) :
    ∀ (pre : List Nat) (slots : List String),
      (∀ j ∈ pre, ∃ r, results.getD j (.error "missing result") = .ok r) →
      results.getD i (.error "missing result") = .error e →
      collectParallelResults results (pre ++ i :: post) slots =
        .error ("error executing tool: " ++ e) := by
  intro pre
  induction pre with
  | nil =>
    intro slots _ herr
    rw [List.nil_append, collectParallelResults, herr]
  | cons j tail ih =>
    intro slots hok herr
    obtain ⟨r, hr⟩ := hok j (List.mem_cons_self j tail)
    rw [List.cons_append, collectParallelResults, hr]
    exact ih (slots.set j r) (fun a ha => hok a (List.mem_cons_of_mem j ha)) herr

/-- C4: in the wrapped parallel branch of GenerateWithTools, when every
worker succeeds, the text fed back to the provider is the newline join of
the results in original sub-call order for every completion order (any
permutation of the indices); and when a worker fails, the first error
taken from the completion channel aborts the turn with that error. -/
theorem parallel_results_in_call_order (tools : List Tool)
    (uses : List ToolUse) (order : List Nat) (rs : List String)
    (hperm : order.Perm (List.range uses.length))
    (hok : uses.map (parallelWorker tools) = rs.map Except.ok) :
    parallelToolUse tools uses order = .ok (String.intercalate "\n" rs) ∧
    (∀ (uses2 : List ToolUse) (pre post : List Nat) (i : Nat) (e : String),
      (∀ j ∈ pre, ∃ r, (uses2.map (parallelWorker tools)).getD j
        (.error "missing result") = .ok r) →
      (uses2.map (parallelWorker tools)).getD i
        (.error "missing result") = .error e →
      parallelToolUse tools uses2 (pre ++ i :: post) =
        .error ("error executing tool: " ++ e)) := by
  constructor
  · have hlen : uses.length = rs.length := by
      have := congrArg List.length hok
      simpa using this
    have hmem : ∀ i ∈ order, i < rs.length := by
      intro i hi
      have := (hperm.mem_iff).mp hi
      rw [List.mem_range] at this
      omega
    unfold parallelToolUse
    rw [hok, collectParallel_all_ok rs order (List.replicate uses.length "") hmem]
    have hfinal : order.foldl (fun s i => s.set i (rs.getD i ""))
        (List.replicate uses.length "") = rs := by
      apply List.ext_getElem
      · rw [foldl_set_length, List.length_replicate, hlen]
      · intro n h1 h2
        have hn : n < rs.length := h2
        have hgd := foldl_set_getD (fun i => rs.getD i "") order
          (List.replicate uses.length "")
          (by intro a ha; rw [List.length_replicate, hlen]; exact hmem a ha) n
        have hmemn : n ∈ order := by
          rw [hperm.mem_iff, List.mem_range]
          omega
        rw [if_pos hmemn] at hgd
        calc (order.foldl (fun s i => s.set i (rs.getD i ""))
              (List.replicate uses.length ""))[n] =
            (order.foldl (fun s i => s.set i (rs.getD i ""))
              (List.replicate uses.length "")).getD n "" := by
              rw [List.getD_eq_getElem?_getD, List.getElem?_eq_getElem h1]
              rfl
          _ = rs.getD n "" := hgd
          _ = rs[n] := by
              rw [List.getD_eq_getElem?_getD, List.getElem?_eq_getElem hn]
              rfl
    rw [hfinal]
  · intro uses2 pre post i e hpre herr
    unfold parallelToolUse
    rw [collectParallel_first_error (uses2.map (parallelWorker tools))
      i post e pre (List.replicate uses2.length "") hpre herr]

/-- Example tools for the parallel batch. -/
def demoTools : List Tool :=
  [{ name := "toolA", exec := fun _ => .ok "a" },
   { name := "toolB", exec := fun _ => .ok "b" },
   { name := "toolC", exec := fun _ => .ok "c" }]

/-- A wrapped batch of three sub-calls in order A, B, C. -/
def demoUses : List ToolUse :=
  [{ recipientName := "toolA", parametersJson := "x" },
   { recipientName := "toolB", parametersJson := "y" },
   { recipientName := "toolC", parametersJson := "z" }]

/-- A wrapped batch whose second sub-call names a missing tool. -/
def demoUsesBad : List ToolUse :=
  [{ recipientName := "toolA", parametersJson := "x" },
   { recipientName := "missing", parametersJson := "y" },
   { recipientName := "toolC", parametersJson := "z" }]

/-- Witness for C4: with completion order B, C, A the joined text is
still a, b, c in sub-call order, and a batch whose second worker fails
aborts with that error. -/
theorem parallel_results_in_call_order_witness :
    ([1, 2, 0] : List Nat).Perm (List.range demoUses.length) ∧
    demoUses.map (parallelWorker demoTools) =
      ["a", "b", "c"].map Except.ok ∧
    parallelToolUse demoTools demoUses [1, 2, 0] = .ok "a\nb\nc" ∧
    parallelToolUse demoTools demoUsesBad [0, 1, 2] =
      .error "error executing tool: tool not found: missing" := by
  have h := parallel_results_in_call_order demoTools demoUses [1, 2, 0]
    ["a", "b", "c"] (by decide) rfl
  refine ⟨by decide, rfl, h.1, ?_⟩
  apply h.2 demoUsesBad [0] [2] 1 "tool not found: missing"
  · intro j hj
    have : j = 0 := by simpa using hj
    subst this
    exact ⟨"a", rfl⟩
  · rfl

/-- C9: when an individual (non-wrapped) tool call resolves to a tool
whose Execute returns an error, the turn is not aborted: the error is
appended to the conversation as a role=tool message with content
Error: followed by the error text, the loop continues with the remaining
calls, and when those succeed the final completion is still requested and
its trimmed text returned. -/
theorem tool_error_appended_and_continues (tools : List Tool)
    (parseToolUses : String → Option (List ToolUse))
    (orders : List (List Nat))
    (finalResponse : List ChatMessage → Except String String)
    (messages : List ChatMessage) (c : ToolCall) (rest : List ToolCall)
    (t : Tool) (e : String)
    (hname : c.name ≠ "parallel_tool_use")
    (hfind : findTool tools c.name = some t)
    (hnz : t.name ≠ "")
    (hexec : t.exec c.arguments = .error e) :
    processToolCalls tools parseToolUses orders (c :: rest) messages =
      processToolCalls tools parseToolUses orders rest
        (messages ++ [ChatMessage.mk "tool" ("Error: " ++ e) t.name c.id]) ∧
    (∀ (msgs2 : List ChatMessage) (out : String),
      (c :: rest).map normalizeToolCallName = c :: rest →
      processToolCalls tools parseToolUses orders rest
        (messages ++ [ChatMessage.mk "tool" ("Error: " ++ e) t.name c.id]) = .ok msgs2 →
      finalResponse msgs2 = .ok out →
      runToolCallsTurn tools parseToolUses orders finalResponse messages
        (c :: rest) = .ok out.trim) := by
  have hstep : processToolCalls tools parseToolUses orders (c :: rest) messages =
      processToolCalls tools parseToolUses orders rest
        (messages ++ [ChatMessage.mk "tool" ("Error: " ++ e) t.name c.id]) := by
    simp only [processToolCalls, if_neg hname, hfind, if_neg hnz, hexec]
  refine ⟨hstep, ?_⟩
  intro msgs2 out hnorm hrest hfinal
  unfold runToolCallsTurn
  rw [hnorm, hstep, hrest]
  simp only [hfinal]

/-- Tools for the C9 witness: the first call fails, the second succeeds. -/
def mixedTools : List Tool :=
  [{ name := "boom", exec := fun _ => .error "kaput" },
   { name := "echo", exec := fun s => .ok s }]

/-- Witness for C9: a failing first call is recorded as an Error message,
the second call still runs, and the final completion text is returned
trimmed. -/
theorem tool_error_appended_and_continues_witness :
    (ToolCall.mk "1" "boom" "x").name ≠ "parallel_tool_use" ∧
    findTool mixedTools "boom" =
      some { name := "boom", exec := fun _ => .error "kaput" } ∧
    runToolCallsTurn mixedTools (fun _ => none) []
      (fun msgs => .ok ("  answer after " ++ toString msgs.length ++ " messages  "))
      [] [ToolCall.mk "1" "boom" "x", ToolCall.mk "2" "echo" "y"] =
      .ok ("  answer after 2 messages  ".trim) := by
  have h := tool_error_appended_and_continues mixedTools (fun _ => none) []
    (fun msgs => .ok ("  answer after " ++ toString msgs.length ++ " messages  "))
    [] (ToolCall.mk "1" "boom" "x") [ToolCall.mk "2" "echo" "y"]
    { name := "boom", exec := fun _ => .error "kaput" } "kaput"
    (by decide) rfl (by decide) rfl
  refine ⟨by decide, rfl, ?_⟩
  have happ := h.2
    [ChatMessage.mk "tool" "Error: kaput" "boom" "1",
     ChatMessage.mk "tool" "y" "echo" "2"]
    "  answer after 2 messages  " (by decide) rfl rfl
  exact happ

/-- Witness for C8 amended at tenant acme and conversation c1. -/
theorem redis_key_tenant_twice_witness :
    "acme" ≠ "" ∧
    (Memory.redisAddMessage Memory.newRedisMemory ⟨some "acme", some "c1"⟩
        ⟨"user", "hi"⟩).map (fun x => x.usedKey) =
      .ok (Memory.newRedisMemory.keyPrefix ++ "acme" ++ ":" ++ "acme" ++ ":" ++ "c1") ∧
    (Memory.redisGetMessages Memory.newRedisMemory
        ⟨some "acme", some "c1"⟩).map (fun x => x.usedKey) =
      .ok (Memory.newRedisMemory.keyPrefix ++ "acme" ++ ":" ++ "acme" ++ ":" ++ "c1") ∧
    (Memory.redisClear Memory.newRedisMemory
        ⟨some "acme", some "c1"⟩).map (fun x => x.usedKey) =
      .ok (Memory.newRedisMemory.keyPrefix ++ "acme" ++ ":" ++ "acme" ++ ":" ++ "c1") :=
  ⟨by decide,
   redis_key_tenant_twice Memory.newRedisMemory "acme" "c1" ⟨"user", "hi"⟩
     (by decide)⟩

end LlmAgent

namespace LlmAgent.AgentPkg

open LlmAgent.ExecutionPlanPkg

/-- The guardrail pipeline as Agent.Run consumes it: ProcessInput and
ProcessOutput, each returning the possibly modified text or an error. -/
structure GuardrailsM where
  processInput : String → Except String String
  processOut : String → Except String String

/-- The collaborators of the Agent struct that Run dispatches to,
supplied as functions: the LLM (Generate and GenerateWithTools), the plan
generator (GenerateExecutionPlan and ModifyExecutionPlan, which call the
LLM internally), the optional guardrails, the local tools, the tools
collected from the MCP servers, and the scalar configuration fields. -/
structure AgentEnv where
  llmGenerate : String → Except String String
  llmGenerateWithTools : String → List Tool → Except String String
  planGenerate : String → Except String ExecutionPlan
  planModify : ExecutionPlan → String → Except String ExecutionPlan
  guardrails : Option GuardrailsM
  tools : List Tool
  mcpTools : List Tool
  systemPrompt : String
  name : String
  requirePlanApproval : Bool

/-- The mutable state Run touches: the memory backend (None when the
agent has no memory; message appends are modelled as always succeeding)
and the plan store keyed by task id. -/
structure AgentState where
  memory : Option (List Message)
  planStore : List (String × ExecutionPlan)
deriving Repr, DecidableEq

/-- Observable outcome of one Agent.Run turn: the returned text or
error, the memory and plan store after the turn, the number of times an
LLM-backed operation was invoked, and whether the plan-action dispatch
path was entered. -/
structure RunResult where
  output : Except String String
  memory : Option (List Message)
  planStore : List (String × ExecutionPlan)
  llmCalls : Nat
  planDispatched : Bool

/-- extractPlanAction of pkg/agent: the source is a placeholder
implementation that always returns an empty task id, an empty action and
the input unchanged. -/
def extractPlanAction (input : String) : String × String × String :=
  ("", "", input)

/-- The curated phrase list of isAskingAboutRole. -/
def roleQueries : List String :=
  ["what are you",
   "who are you",
   "what is your role",
   "what do you do",
   "what can you do",
   "what is your purpose",
   "what is your function",
   "tell me about yourself",
   "introduce yourself",
   "what are your capabilities",
   "what are you designed to do",
   "what\x27s your job",
   "what kind of assistant are you",
   "your role",
   "your expertise",
   "what are you expert in",
   "what are you specialized in",
   "your specialty",
   "what\x27s your specialty"]

/-- isAskingAboutRole: case-insensitive containment of any curated
phrase. -/
def isAskingAboutRole (input : String) : Bool :=
  roleQueries.any (fun q => decide (q.toList <:+: input.toLower.toList))

/-- The instruction template of generateRoleResponse. -/
def rolePrompt (agentName systemPrompt : String) : String :=
  "Based on the following system prompt that defines your role and capabilities,\n" ++
  "generate a brief, natural-sounding response (3-5 sentences) introducing yourself to a user who asked what you can do.\n" ++
  "You are named \"" ++ agentName ++ "\".\n" ++
  "Do not directly quote from the system prompt, but create a conversational first-person response that captures your\n" ++
  "purpose, expertise, and how you can help. The response should feel like a natural conversation, not like reading documentation.\n\n" ++
  "System prompt:\n" ++ systemPrompt ++ "\n\n" ++
  "Your response should:\n" ++
  "1. Introduce yourself using first-person perspective, mentioning your name (\"" ++ agentName ++ "\")\n" ++
  "2. Briefly explain your specialization or purpose\n" ++
  "3. Mention 2-3 key areas you can help with\n" ++
  "4. End with a friendly question about how you can assist the user\n\n" ++
  "Response:"

/-- generateRoleResponse: a generic response when no system prompt is
configured, otherwise an LLM call with a fallback on failure. The second
component counts the LLM invocations made. -/
def generateRoleResponse (env : AgentEnv) : String × Nat :=
  if env.systemPrompt = "" then
    ("I\x27m an AI assistant designed to help you with various tasks and answer your questions. How can I assist you today?",
     0)
  else
    let agentName := if env.name ≠ "" then env.name else "an AI assistant"
    match env.llmGenerate (rolePrompt agentName env.systemPrompt) with
    | .error _ =>
      (if env.name ≠ "" then
        "I\x27m " ++ env.name ++ ", an AI assistant based on the role defined in my system prompt. How can I help you today?"
      else
        "I\x27m an AI assistant based on the role defined in my system prompt. How can I help you today?",
       1)
    | .ok r => (r, 1)

/-- Modelled from the spec: the status strings of the plan statuses
(StatusDraft renders as draft in the package test; the remaining wording
follows the spec state names). The defining file executionplan.go is not
under src. -/
def statusString : PlanStatus → String
  | .draft => "draft"
  | .awaitingApproval => "awaiting_approval"
  | .approved => "approved"
  | .executing => "executing"
  | .completed => "completed"
  | .failed => "failed"
  | .cancelled => "cancelled"

/-- Modelled from the spec: the step rendering of FormatExecutionPlan,
whose defining file executionplan.go is not under src; the package test
shows the step heading, tool and input lines. -/
def formatSteps : Nat → List ExecutionStep → String
  | _, [] => ""
  | i, s :: rest =>
    "## Step " ++ toString i ++ ": " ++ s.description ++
    "\nTool: " ++ s.toolName ++ "\nInput: " ++ s.input ++ "\n" ++
    formatSteps (i + 1) rest

/-- Modelled from the spec: FormatExecutionPlan, whose defining file
executionplan.go is not under src; the package test shows it renders the
description, task id, status and the steps. Only its role as an opaque
rendering matters to the theorems below. -/
def formatExecutionPlan (p : ExecutionPlan) : String :=
  "# Execution Plan: " ++ p.description ++
  "\nTask ID: " ++ p.taskId ++
  "\nStatus: " ++ statusString p.status ++ "\n" ++
  formatSteps 1 p.steps

/-- formatHistoryIntoPrompt: concatenates role: content lines. -/
def formatHistoryIntoPrompt (history : List Message) : String :=
  history.foldl (fun prompt msg => prompt ++ msg.role ++ ": " ++ msg.content ++ "\n") ""

/-- The tail of approvePlan applied to the executor outcome: return the
result (recording it in memory) or the wrapped execution error. -/
def finishApprove (mem2 : Option (List Message))
    (store2 : List (String × ExecutionPlan)) (out : Except String String) :
    RunResult :=
  match out with
  | .error e =>
    { output := .error ("failed to execute plan: " ++ e)
      memory := mem2
      planStore := store2
      llmCalls := 0
      planDispatched := true }
  | .ok result =>
    { output := .ok result
      memory := mem2.map (fun l => l ++ [Message.mk "assistant" result])
      planStore := store2
      llmCalls := 0
      planDispatched := true }

/-- approvePlan proper: the approved plan is written back through the
shared pointer (both before and after execution the store entry is the
same object the executor mutates). -/
def approvePlan (env : AgentEnv) (st : AgentState)
    (mem1 : Option (List Message)) (plan : ExecutionPlan) : RunResult :=
  let plan1 := { plan with userApproved := true, status := .approved }
  let eo := executePlan env.tools plan1
  finishApprove
    (mem1.map (fun l =>
      l ++ [Message.mk "user" "I approve the plan. Please proceed with execution."]))
    (assocSet (assocSet st.planStore plan1.taskId plan1) plan1.taskId eo.plan)
    eo.output

/-- modifyPlan: records the request, asks the generator (an LLM call) for
the rewritten plan, stores it and returns the formatted rendering. -/
def modifyPlanAction (env : AgentEnv) (st : AgentState)
    (mem1 : Option (List Message)) (plan : ExecutionPlan) (input : String) :
    RunResult :=
  let mem2 := mem1.map (fun l =>
    l ++ [Message.mk "user" ("I\x27d like to modify the plan: " ++ input)])
  match env.planModify plan input with
  | .error e =>
    { output := .error ("failed to modify plan: " ++ e)
      memory := mem2
      planStore := st.planStore
      llmCalls := 1
      planDispatched := true }
  | .ok p2 =>
    let resp := "I\x27ve updated the execution plan based on your feedback:\n\n" ++
      formatExecutionPlan p2 ++
      "\nDo you approve this plan? You can modify it further if needed."
    { output := .ok resp
      memory := mem2.map (fun l => l ++ [Message.mk "assistant" resp])
      planStore := assocSet st.planStore p2.taskId p2
      llmCalls := 1
      planDispatched := true }

/-- cancelPlan handler of the agent: delegates to Executor.CancelPlan
(mutating the stored plan through the shared pointer). -/
def cancelPlanAction (st : AgentState) (mem1 : Option (List Message))
    (plan : ExecutionPlan) : RunResult :=
  let p2 := cancelPlan plan
  { output := .ok "Plan cancelled. What would you like to do instead?"
    memory := mem1
    planStore := assocSet st.planStore p2.taskId p2
    llmCalls := 0
    planDispatched := true }

/-- getPlanStatus handler of the agent. -/
def getPlanStatusAction (st : AgentState) (mem1 : Option (List Message))
    (plan : ExecutionPlan) : RunResult :=
  { output := .ok ("Current plan status: " ++ statusString (getPlanStatus plan) ++
      "\n\n" ++ formatExecutionPlan plan)
    memory := mem1
    planStore := st.planStore
    llmCalls := 0
    planDispatched := true }

/-- handlePlanAction: resolve the stored plan by task id and dispatch on
the action (approve, modify, cancel, status). -/
def handlePlanAction (env : AgentEnv) (st : AgentState)
    (mem1 : Option (List Message)) (taskID action input : String) : RunResult :=
  match lookupAssoc st.planStore taskID with
  | none =>
    { output := .error ("plan with task ID " ++ taskID ++ " not found")
      memory := mem1
      planStore := st.planStore
      llmCalls := 0
      planDispatched := true }
  | some plan =>
    if action = "approve" then approvePlan env st mem1 plan
    else if action = "modify" then modifyPlanAction env st mem1 plan input
    else if action = "cancel" then cancelPlanAction st mem1 plan
    else if action = "status" then getPlanStatusAction st mem1 plan
    else
      { output := .error ("unknown plan action: " ++ action)
        memory := mem1
        planStore := st.planStore
        llmCalls := 0
        planDispatched := true }

/-- runWithExecutionPlan: generate a plan (an LLM call), store it, record
and return the formatted rendering with the approval request. -/
def runWithExecutionPlan (env : AgentEnv) (st : AgentState)
    (mem1 : Option (List Message)) (input : String) : RunResult :=
  match env.planGenerate input with
  | .error e =>
    { output := .error ("failed to generate execution plan: " ++ e)
      memory := mem1
      planStore := st.planStore
      llmCalls := 1
      planDispatched := false }
  | .ok plan =>
    let resp := "I\x27ve created an execution plan for your request:\n\n" ++
      formatExecutionPlan plan ++
      "\nDo you approve this plan? You can modify it if needed."
    { output := .ok resp
      memory := mem1.map (fun l => l ++ [Message.mk "assistant" resp])
      planStore := assocSet st.planStore plan.taskId plan
      llmCalls := 1
      planDispatched := false }

/-- The tail of runWithoutExecutionPlanWithTools applied to the outcome
of the LLM call: surface a generation error, otherwise apply the output
guardrails and append the assistant message. -/
def finishDirectResponse (env : AgentEnv) (st : AgentState)
    (mem1 : Option (List Message)) (gen : Except String String) : RunResult :=
  match gen with
  | .error e =>
    { output := .error ("failed to generate response: " ++ e)
      memory := mem1
      planStore := st.planStore
      llmCalls := 1
      planDispatched := false }
  | .ok response =>
    match env.guardrails with
    | some g =>
      match g.processOut response with
      | .error e =>
        { output := .error ("guardrails error: " ++ e)
          memory := mem1
          planStore := st.planStore
          llmCalls := 1
          planDispatched := false }
      | .ok r2 =>
        { output := .ok r2
          memory := mem1.map (fun l => l ++ [Message.mk "assistant" r2])
          planStore := st.planStore
          llmCalls := 1
          planDispatched := false }
    | none =>
      { output := .ok response
        memory := mem1.map (fun l => l ++ [Message.mk "assistant" response])
        planStore := st.planStore
        llmCalls := 1
        planDispatched := false }

/-- runWithoutExecutionPlanWithTools: build the prompt from the memory
history when present, call GenerateWithTools or Generate (one LLM call),
then finish with the output guardrails and the assistant append. -/
def runWithoutExecutionPlanWithTools (env : AgentEnv) (st : AgentState)
    (mem1 : Option (List Message)) (input : String) (tools : List Tool) :
    RunResult :=
  let prompt :=
    match mem1 with
    | some history => formatHistoryIntoPrompt history
    | none => input
  finishDirectResponse env st mem1
    (if tools.length > 0 then env.llmGenerateWithTools prompt tools
     else env.llmGenerate prompt)

/-- The part of Agent.Run after the input guardrails: plan-action
extraction and dispatch, the role-query shortcut, then the plan path or
the direct path over the local plus MCP tools. -/
def agentRunAfterGuard (env : AgentEnv) (st : AgentState)
    (mem1 : Option (List Message)) (input : String) : RunResult :=
  if (extractPlanAction input).fst ≠ "" then
    handlePlanAction env st mem1 (extractPlanAction input).fst
      (extractPlanAction input).snd.fst (extractPlanAction input).snd.snd
  else if env.systemPrompt ≠ "" ∧ isAskingAboutRole input = true then
    { output := .ok (generateRoleResponse env).fst
      memory := mem1.map (fun l =>
        l ++ [Message.mk "assistant" (generateRoleResponse env).fst])
      planStore := st.planStore
      llmCalls := (generateRoleResponse env).snd
      planDispatched := false }
  else
    if (env.tools ++ env.mcpTools).length > 0 ∧ env.requirePlanApproval = true then
      runWithExecutionPlan env st mem1 input
    else
      runWithoutExecutionPlanWithTools env st mem1 input (env.tools ++ env.mcpTools)

/-- Agent.Run: append the user message to memory, apply the input
guardrails (an error returns immediately), then continue with the
dispatch and generation branches. -/
def agentRun (env : AgentEnv) (st : AgentState) (input : String) : RunResult :=
  let mem1 := st.memory.map (fun l => l ++ [Message.mk "user" input])
  match env.guardrails with
  | some g =>
    match g.processInput input with
    | .error e =>
      { output := .error ("guardrails error: " ++ e)
        memory := mem1
        planStore := st.planStore
        llmCalls := 0
        planDispatched := false }
    | .ok guardedInput => agentRunAfterGuard env st mem1 guardedInput
  | none => agentRunAfterGuard env st mem1 input

end LlmAgent.AgentPkg

namespace LlmAgent

open ExecutionPlanPkg AgentPkg

/-- The plan-generation path never marks a plan-action dispatch. -/
theorem runWithExecutionPlan_no_dispatch (env : AgentEnv) (st : AgentState)
    (mem1 : Option (List Message)) (input : String) :
    (runWithExecutionPlan env st mem1 input).planDispatched = false := by
  unfold runWithExecutionPlan
  cases env.planGenerate input <;> rfl

/-- The direct generation path never marks a plan-action dispatch. -/
theorem runWithoutPlan_no_dispatch (env : AgentEnv) (st : AgentState)
    (mem1 : Option (List Message)) (input : String) (tools : List Tool) :
    (runWithoutExecutionPlanWithTools env st mem1 input tools).planDispatched =
      false := by
  have hfin : ∀ gen, (finishDirectResponse env st mem1 gen).planDispatched =
      false := by
    intro gen
    unfold finishDirectResponse
    repeat' split
    all_goals rfl
  unfold runWithoutExecutionPlanWithTools
  exact hfin _

/-- After the guardrails, Run never enters the plan-action dispatch: the
extractor stub always returns an empty task id. -/
theorem agentRunAfterGuard_no_dispatch (env : AgentEnv) (st : AgentState)
    (mem1 : Option (List Message)) (input : String) :
    (agentRunAfterGuard env st mem1 input).planDispatched = false := by
  unfold agentRunAfterGuard
  rw [if_neg (by simp [extractPlanAction])]
  split
  · rfl
  · split
    · exact runWithExecutionPlan_no_dispatch env st mem1 input
    · exact runWithoutPlan_no_dispatch env st mem1 input
        (env.tools ++ env.mcpTools)

/-- On no input does Agent.Run mark a plan-action dispatch. -/
theorem agentRun_no_dispatch (env : AgentEnv) (st : AgentState)
    (input : String) :
    (agentRun env st input).planDispatched = false := by
  unfold agentRun
  split
  · split
    · rfl
    · exact agentRunAfterGuard_no_dispatch env st _ _
  · exact agentRunAfterGuard_no_dispatch env st _ _

/-- C5 counterexample: there is no configuration, no stored plan and no
user input for which Agent.Run enters the plan-action dispatch path,
because the extractPlanAction stub always returns an empty task id; in
particular no approve directive is ever extracted and dispatched. -/
theorem agentRun_never_dispatches_plan_action :
    ¬ ∃ (env : AgentEnv) (st : AgentState) (input : String),
      (agentRun env st input).planDispatched = true := by
  rintro ⟨env, st, input, h⟩
  rw [agentRun_no_dispatch env st input] at h
  exact Bool.false_ne_true h

/-- The output of the approve tail is the executor result or the wrapped
execution error. -/
theorem finishApprove_output (mem2 : Option (List Message))
    (store2 : List (String × ExecutionPlanPkg.ExecutionPlan))
    (out : Except String String) :
    (finishApprove mem2 store2 out).output =
      match out with
      | .ok r => .ok r
      | .error e => .error ("failed to execute plan: " ++ e) := by
  cases out <;> rfl

/-- The approve tail leaves exactly the store it was given. -/
theorem finishApprove_planStore (mem2 : Option (List Message))
    (store2 : List (String × ExecutionPlanPkg.ExecutionPlan))
    (out : Except String String) :
    (finishApprove mem2 store2 out).planStore = store2 := by
  cases out <;> rfl

/-- C5 amended: extractPlanAction is a stub that returns an empty task
id, an empty action and the unchanged input for every input, so Agent.Run
never dispatches to the plan-lifecycle handlers; the dispatch code itself
is present, and handlePlanAction invoked directly with the approve action
on a stored plan marks it approved (UserApproved true, status Approved)
and executes it, returning the executor result (or the wrapped execution
error) and storing the executed plan. -/
theorem plan_action_stub_and_approve_handler (env : AgentEnv)
    (st : AgentState) (mem1 : Option (List Message))
    (tid planInput : String) (plan : ExecutionPlan)
    (hstore : lookupAssoc st.planStore tid = some plan) :
    (∀ s : String, extractPlanAction s = ("", "", s)) ∧
    (∀ (env2 : AgentEnv) (st2 : AgentState) (input2 : String),
      (agentRun env2 st2 input2).planDispatched = false) ∧
    handlePlanAction env st mem1 tid "approve" planInput =
      approvePlan env st mem1 plan ∧
    ((approvePlan env st mem1 plan).output =
      match (executePlan env.tools
          { plan with userApproved := true, status := .approved }).output with
      | .ok r => .ok r
      | .error e => .error ("failed to execute plan: " ++ e)) ∧
    lookupAssoc (approvePlan env st mem1 plan).planStore plan.taskId =
      some (executePlan env.tools
        { plan with userApproved := true, status := .approved }).plan := by
  refine ⟨fun s => rfl, agentRun_no_dispatch, ?_, ?_, ?_⟩
  · simp [handlePlanAction, hstore]
  · rw [show (approvePlan env st mem1 plan).output = _ from
      finishApprove_output _ _ _]
  · rw [show (approvePlan env st mem1 plan).planStore = _ from
      finishApprove_planStore _ _ _]
    exact lookupAssoc_assocSet_self _ _ _

/-- Agent environment for the C5 witness. -/
def demoAgentEnv : AgentEnv :=
  { llmGenerate := fun _ => .ok "llm"
    llmGenerateWithTools := fun _ _ => .ok "llm with tools"
    planGenerate := fun _ => .error "no generator"
    planModify := fun p _ => .ok p
    guardrails := none
    tools := [calcTool]
    mcpTools := []
    systemPrompt := ""
    name := ""
    requirePlanApproval := true }

/-- A stored plan awaiting approval for the C5 witness. -/
def draftPlan : ExecutionPlan :=
  { taskId := "task-9"
    description := "demo"
    steps := [{ toolName := "calculator", description := "multiply", input := "6*7" }]
    userApproved := false
    status := .awaitingApproval }

/-- Agent state for the C5 witness: memory present and the plan stored. -/
def demoAgentState : AgentState :=
  { memory := some [], planStore := [("task-9", draftPlan)] }

/-- Witness for C5 amended: on the concrete stored plan, the extractor
returns no action even for an approve-shaped input, Run does not
dispatch, and the approve handler run directly executes the plan and
returns the step results. -/
theorem plan_action_stub_witness :
    lookupAssoc demoAgentState.planStore "task-9" = some draftPlan ∧
    extractPlanAction "approve task-9" = ("", "", "approve task-9") ∧
    (agentRun demoAgentEnv demoAgentState "approve task-9").planDispatched =
      false ∧
    handlePlanAction demoAgentEnv demoAgentState (some []) "task-9" "approve"
      "" = approvePlan demoAgentEnv demoAgentState (some []) draftPlan ∧
    (approvePlan demoAgentEnv demoAgentState (some []) draftPlan).output =
      .ok "Execution plan completed successfully!\n\nStep 1 (multiply): 42" := by
  have h := plan_action_stub_and_approve_handler demoAgentEnv demoAgentState
    (some []) "task-9" "" draftPlan rfl
  refine ⟨rfl, h.1 "approve task-9", h.2.1 demoAgentEnv demoAgentState
    "approve task-9", h.2.2.1, ?_⟩
  rw [h.2.2.2.1]
  rfl

/-- C6: when the configured guardrails reject the input, Agent.Run
returns the guardrails error, no LLM-backed operation is invoked in the
turn, the memory holds the already-appended user message and no assistant
message, and the plan store is untouched. -/
theorem agentRun_guardrail_block (env : AgentEnv) (st : AgentState)
    (input e : String) (g : GuardrailsM)
    (hg : env.guardrails = some g)
    (he : g.processInput input = .error e) :
    (agentRun env st input).output = .error ("guardrails error: " ++ e) ∧
    (agentRun env st input).llmCalls = 0 ∧
    (agentRun env st input).memory =
      st.memory.map (fun l => l ++ [Message.mk "user" input]) ∧
    (agentRun env st input).planStore = st.planStore := by
  unfold agentRun
  rw [hg]
  simp [he]

/-- A guardrail pipeline that blocks every input. -/
def blockingGuardrails : GuardrailsM :=
  { processInput := fun _ => .error "guardrail content filter blocked request"
    processOut := fun s => .ok s }

/-- Agent environment for the C6 witness: the blocking pipeline
configured. -/
def blockedAgentEnv : AgentEnv :=
  { demoAgentEnv with guardrails := some blockingGuardrails }

/-- Agent state for the C6 witness, with one prior message in memory. -/
def blockedAgentState : AgentState :=
  { memory := some [Message.mk "user" "earlier"], planStore := [] }

/-- Witness for C6 at a concrete blocked input. -/
theorem agentRun_guardrail_block_witness :
    blockedAgentEnv.guardrails = some blockingGuardrails ∧
    blockingGuardrails.processInput "forbidden words" =
      .error "guardrail content filter blocked request" ∧
    (agentRun blockedAgentEnv blockedAgentState "forbidden words").output =
      .error "guardrails error: guardrail content filter blocked request" ∧
    (agentRun blockedAgentEnv blockedAgentState "forbidden words").llmCalls = 0 ∧
    (agentRun blockedAgentEnv blockedAgentState "forbidden words").memory =
      some [Message.mk "user" "earlier", Message.mk "user" "forbidden words"] ∧
    (agentRun blockedAgentEnv blockedAgentState "forbidden words").planStore =
      [] := by
  have h := agentRun_guardrail_block blockedAgentEnv blockedAgentState
    "forbidden words" "guardrail content filter blocked request"
    blockingGuardrails rfl rfl
  exact ⟨rfl, rfl, h.1, h.2.1, h.2.2.1, h.2.2.2⟩

end LlmAgent

namespace LlmAgent.Orchestration

/-- Task statuses of pkg/orchestration/code_orchestrator.go. -/
inductive TaskStatus
  | pending
  | running
  | completed
  | failed
deriving Repr, DecidableEq

/-- Task of the workflow orchestrator. -/
structure Task where
  id : String
  agentId : String
  input : String
  dependencies : List String
  status : TaskStatus
  result : String
  error : Option String
deriving Repr, DecidableEq

/-- Workflow: the task list, the shared result and error maps, and the
final task id. -/
structure Workflow where
  tasks : List Task
  results : List (String × String)
  errors : List (String × String)
  finalTaskId : String
deriving Repr, DecidableEq

/-- The agent registry as the orchestrator consumes it: Get(agentID)
yields the agent when present, and the agent is its Run function. -/
abbrev AgentRegistry := String → Option (String → Except String String)

/-- Writing a task value back through its pointer: every stored entry
with the same id takes the new value. -/
def updateTask (w : Workflow) (t : Task) : Workflow :=
  { w with tasks := w.tasks.map (fun u => if u.id = t.id then t else u) }

/-- The status of the task with the given id, when present. -/
def statusOf (w : Workflow) (tid : String) : Option TaskStatus :=
  (w.tasks.find? (fun t => t.id = tid)).map (fun t => t.status)

/-- A task id has terminated: its status is Completed or Failed. -/
def finishedAt (w : Workflow) (tid : String) : Prop :=
  statusOf w tid = some TaskStatus.completed ∨
    statusOf w tid = some TaskStatus.failed

/-- Record of one worker start: the task id together with the statuses of
its declared dependencies at the moment the task transitions to Running. -/
structure RunEvent where
  taskId : String
  depStatuses : List (String × Option TaskStatus)
deriving Repr, DecidableEq

/-- The dependency-status snapshot taken when a task starts running. -/
def depSnapshot (w : Workflow) (t : Task) : List (String × Option TaskStatus) :=
  t.dependencies.map (fun d => (d, statusOf w d))

/-- Input composition in executeTask: the task input followed by the
recorded result of every dependency that has one. -/
def composeInput (w : Workflow) (t : Task) : String :=
  t.dependencies.foldl (fun inp depId =>
    match lookupAssoc w.results depId with
    | some r => inp ++ "\n\nResult from " ++ depId ++ ": " ++ r
    | none => inp) t.input

/-- The worker body up to the agent call: resolve the agent (a missing
agent is the agent-not-found failure), compose the input from the
dependency results, run the agent and normalize its failure message. -/
def workerOutcome (registry : AgentRegistry) (w : Workflow) (t : Task) :
    Except String String :=
  match registry t.agentId with
  | none => .error ("agent not found: " ++ t.agentId)
  | some run =>
    match run (composeInput w t) with
    | .error e => .error ("agent execution failed: " ++ e)
    | .ok r => .ok r

/-- CodeOrchestrator.executeTask run to completion: set the status to
Running (the returned event snapshots the dependency statuses at that
moment), run the worker body, and record the Completed result or the
Failed error in the task entry and the corresponding workflow map. The
workflow passed to the worker body has the Running status already
written, as in the source; its result map is unchanged by that write. -/
def executeTaskE (registry : AgentRegistry) (w : Workflow) (t : Task) :
    Workflow × RunEvent :=
  match workerOutcome registry
      (updateTask w { t with status := TaskStatus.running }) t with
  | .error msg =>
    ({ updateTask (updateTask w { t with status := TaskStatus.running })
        { t with status := TaskStatus.failed, error := some msg } with
        errors := assocSet w.errors t.id msg },
     { taskId := t.id, depStatuses := depSnapshot w t })
  | .ok result =>
    ({ updateTask (updateTask w { t with status := TaskStatus.running })
        { t with status := TaskStatus.completed, result := result } with
        results := assocSet w.results t.id result },
     { taskId := t.id, depStatuses := depSnapshot w t })

/-- Run a batch of spawned workers one after another (a legitimate
linearization of the concurrent spawns): returns the updated workflow,
the run events in spawn order and the completion signals in spawn order. -/
def runReady (registry : AgentRegistry) :
    Workflow → List Task → Workflow × List RunEvent × List String
  | w, [] => (w, [], [])
  | w, t :: rest =>
    match executeTaskE registry w t with
    | (w1, ev) =>
      match runReady registry w1 rest with
      | (w2, evs, sigs) => (w2, ev :: evs, t.id :: sigs)

/-- The all-finished check of the coordinator: every task is Completed or
Failed. -/
def allFinished (w : Workflow) : Bool :=
  w.tasks.all (fun t =>
    decide (t.status = TaskStatus.completed ∨ t.status = TaskStatus.failed))

/-- The readiness scan of the coordinator: every still-Pending task all
of whose dependencies are in the completed-signal set. -/
def readyTasks (w : Workflow) (completed : List String) : List Task :=
  w.tasks.filter (fun t =>
    decide (t.status = TaskStatus.pending) &&
      t.dependencies.all (fun d => completed.contains d))

/-- Coordinator state: the workflow, the set of ids that have signalled
completion, and the trace of run events. -/
structure SchedState where
  wf : Workflow
  completedTasks : List String
  trace : List RunEvent
deriving Repr, DecidableEq

/-- The coordinator loop under the FIFO schedule: process one completion
signal at a time (mark it completed, stop when every task has finished,
otherwise spawn and run every ready task and queue their signals). The
fuel only bounds the number of processed signals; each signal is
processed at most once, so ample fuel makes the recursion total. -/
def stepSignals (registry : AgentRegistry) :
    Nat → SchedState → List String → SchedState
  | 0, st, _ => st
  | _ + 1, st, [] => st
  | fuel + 1, st, tid :: rest =>
    if allFinished st.wf then
      { st with completedTasks := st.completedTasks ++ [tid] }
    else
      match runReady registry st.wf
          (readyTasks st.wf (st.completedTasks ++ [tid])) with
      | (w2, evs, sigs) =>
        stepSignals registry fuel
          { wf := w2, completedTasks := st.completedTasks ++ [tid],
            trace := st.trace ++ evs }
          (rest ++ sigs)

/-- CodeOrchestrator.ExecuteWorkflow up to the wait: start every task
with no dependencies, then run the coordinator loop to quiescence. -/
def executeWorkflowRun (registry : AgentRegistry) (wf : Workflow)
    (fuel : Nat) : SchedState :=
  match runReady registry wf
      (wf.tasks.filter (fun t => t.dependencies.isEmpty)) with
  | (w1, evs, sigs) =>
    stepSignals registry fuel
      { wf := w1, completedTasks := [], trace := evs } sigs

/-- CodeOrchestrator.ExecuteWorkflow: after the workers have drained,
return the final task error when recorded, else its result when recorded,
else the final-task-result-not-found error; with no final task id, the
empty result. -/
def executeWorkflow (registry : AgentRegistry) (wf : Workflow) (fuel : Nat) :
    Except String String :=
  if (executeWorkflowRun registry wf fuel).wf.finalTaskId ≠ "" then
    match lookupAssoc (executeWorkflowRun registry wf fuel).wf.errors
        (executeWorkflowRun registry wf fuel).wf.finalTaskId with
    | some e => .error ("final task failed: " ++ e)
    | none =>
      match lookupAssoc (executeWorkflowRun registry wf fuel).wf.results
          (executeWorkflowRun registry wf fuel).wf.finalTaskId with
      | some r => .ok r
      | none => .error "final task result not found"
  else
    .ok ""

/-- Registry with one failing and one succeeding agent. -/
def exRegistry : AgentRegistry := fun aid =>
  if aid = "agent-fail" then some (fun _ => .error "boom")
  else if aid = "agent-ok" then some (fun inp => .ok ("done:" ++ inp))
  else none

/-- Workflow in which the final task t2 depends on t1 and t1 fails. -/
def exWorkflow : Workflow :=
  { tasks :=
      [{ id := "t1", agentId := "agent-fail", input := "i1",
         dependencies := [], status := .pending, result := "", error := none },
       { id := "t2", agentId := "agent-ok", input := "i2",
         dependencies := ["t1"], status := .pending, result := "", error := none }]
    results := []
    errors := []
    finalTaskId := "t2" }

/-- Workflow whose final task t2 depends on an id that no task carries,
so t2 can never become ready. -/
def danglingWorkflow : Workflow :=
  { tasks :=
      [{ id := "t1", agentId := "agent-ok", input := "a",
         dependencies := [], status := .pending, result := "", error := none },
       { id := "t2", agentId := "agent-ok", input := "b",
         dependencies := ["ghost"], status := .pending, result := "", error := none }]
    results := []
    errors := []
    finalTaskId := "t2" }

end LlmAgent.Orchestration

namespace LlmAgent

open Orchestration

/-- C1 counterexample: in the workflow where t1 fails and t2 declares t1
as its only dependency, t2 still transitions to Running (the event trace
records its start with t1 in status Failed at that moment) and t2 ends
Completed, so a task with a Failed dependency neither stays Pending nor
is skipped. -/
theorem task_with_failed_dep_still_runs :
    (executeWorkflowRun exRegistry exWorkflow 8).trace =
      [{ taskId := "t1", depStatuses := [] },
       { taskId := "t2", depStatuses := [("t1", some TaskStatus.failed)] }] ∧
    statusOf (executeWorkflowRun exRegistry exWorkflow 8).wf "t2" =
      some TaskStatus.completed := by
  exact ⟨by decide, by decide⟩

/-- C7 counterexample: in the same workflow, whose final task t2 depends
on the Failed t1, ExecuteWorkflow runs t2 anyway and returns its result:
there is no WorkflowStalled error and t2 does not remain Pending. -/
theorem workflow_failed_dep_not_stalled :
    executeWorkflow exRegistry exWorkflow 8 = .ok "done:i2" ∧
    statusOf (executeWorkflowRun exRegistry exWorkflow 8).wf "t2" ≠
      some TaskStatus.pending := by
  exact ⟨rfl, by decide⟩

end LlmAgent

namespace LlmAgent.Orchestration

/-- Defining equation of runReady on a cons batch (structure eta). -/
theorem runReady_cons (registry : AgentRegistry) (w : Workflow) (t : Task)
    (rest : List Task) :
    runReady registry w (t :: rest) =
      ((runReady registry (executeTaskE registry w t).fst rest).fst,
       (executeTaskE registry w t).snd ::
         (runReady registry (executeTaskE registry w t).fst rest).snd.fst,
       t.id ::
         (runReady registry (executeTaskE registry w t).fst rest).snd.snd) :=
  rfl

/-- Defining equation of stepSignals on a cons signal queue. -/
theorem stepSignals_cons (registry : AgentRegistry) (fuel : Nat)
    (st : SchedState) (tid : String) (rest : List String) :
    stepSignals registry (fuel + 1) st (tid :: rest) =
      if allFinished st.wf then
        { st with completedTasks := st.completedTasks ++ [tid] }
      else
        stepSignals registry fuel
          { wf := (runReady registry st.wf
              (readyTasks st.wf (st.completedTasks ++ [tid]))).fst,
            completedTasks := st.completedTasks ++ [tid],
            trace := st.trace ++ (runReady registry st.wf
              (readyTasks st.wf (st.completedTasks ++ [tid]))).snd.fst }
          (rest ++ (runReady registry st.wf
            (readyTasks st.wf (st.completedTasks ++ [tid]))).snd.snd) :=
  rfl

/-- Defining equation of executeWorkflowRun. -/
theorem executeWorkflowRun_eq (registry : AgentRegistry) (wf : Workflow)
    (fuel : Nat) :
    executeWorkflowRun registry wf fuel =
      stepSignals registry fuel
        { wf := (runReady registry wf
            (wf.tasks.filter (fun t => t.dependencies.isEmpty))).fst,
          completedTasks := [],
          trace := (runReady registry wf
            (wf.tasks.filter (fun t => t.dependencies.isEmpty))).snd.fst }
        (runReady registry wf
          (wf.tasks.filter (fun t => t.dependencies.isEmpty))).snd.snd :=
  rfl

/-- Replacing the entries of one id leaves lookups of other ids alone. -/
theorem find?_update_ne (tasks : List Task) (x : Task) (tid : String)
    (h : tid ≠ x.id) :
    (tasks.map (fun u => if u.id = x.id then x else u)).find?
      (fun u => u.id = tid) = tasks.find? (fun u => u.id = tid) := by
  induction tasks with
  | nil => rfl
  | cons u rest ih =>
    by_cases hu : u.id = x.id
    · have h1 : ¬ (x.id = tid) := fun hh => h hh.symm
      have h2 : ¬ (u.id = tid) := by rw [hu]; exact h1
      simp only [List.map_cons, if_pos hu]
      rw [List.find?_cons_of_neg _ (by simpa using h1),
          List.find?_cons_of_neg _ (by simpa using h2)]
      exact ih
    · simp only [List.map_cons, if_neg hu]
      by_cases h2 : u.id = tid
      · rw [List.find?_cons_of_pos _ (by simpa using h2),
            List.find?_cons_of_pos _ (by simpa using h2)]
      · rw [List.find?_cons_of_neg _ (by simpa using h2),
            List.find?_cons_of_neg _ (by simpa using h2)]
        exact ih

/-- Replacing the entries of an id that occurs makes its lookup the new
value. -/
theorem find?_update_self (tasks : List Task) (x : Task)
    (h : x.id ∈ tasks.map Task.id) :
    (tasks.map (fun u => if u.id = x.id then x else u)).find?
      (fun u => u.id = x.id) = some x := by
  induction tasks with
  | nil => simp at h
  | cons u rest ih =>
    by_cases hu : u.id = x.id
    · simp only [List.map_cons, if_pos hu]
      rw [List.find?_cons_of_pos _ (by simp)]
    · simp only [List.map_cons, if_neg hu]
      rw [List.find?_cons_of_neg _ (by simpa using hu)]
      apply ih
      rw [List.map_cons] at h
      rcases List.mem_cons.mp h with h1 | h1
      · exact absurd h1.symm hu
      · exact h1

theorem statusOf_updateTask_ne (w : Workflow) (x : Task) (tid : String)
    (h : tid ≠ x.id) : statusOf (updateTask w x) tid = statusOf w tid := by
  unfold statusOf updateTask
  rw [find?_update_ne w.tasks x tid h]

theorem statusOf_updateTask_self (w : Workflow) (x : Task)
    (h : x.id ∈ w.tasks.map Task.id) :
    statusOf (updateTask w x) x.id = some x.status := by
  unfold statusOf updateTask
  rw [find?_update_self w.tasks x h]
  rfl

theorem updateTask_map_id (w : Workflow) (x : Task) :
    (updateTask w x).tasks.map Task.id = w.tasks.map Task.id := by
  unfold updateTask
  simp only [List.map_map]
  apply List.map_congr_left
  intro u _
  by_cases hu : u.id = x.id
  · simp [Function.comp, hu]
  · simp [Function.comp, hu]

/-- A task id with a status occurs among the task ids. -/
theorem mem_of_statusOf_some (w : Workflow) (tid : String) (s : TaskStatus)
    (h : statusOf w tid = some s) : tid ∈ w.tasks.map Task.id := by
  unfold statusOf at h
  rcases hf : w.tasks.find? (fun u => u.id = tid) with _ | u
  · rw [hf] at h
    simp at h
  · have hpred : u.id = tid := by simpa using List.find?_some hf
    have hmem := List.mem_of_find?_eq_some hf
    rw [← hpred]
    exact List.mem_map_of_mem Task.id hmem

/-- With no duplicate ids, the status found for a member task id is the
status of that task. -/
theorem find?_id_of_mem_nodup (tasks : List Task) (t : Task)
    (hnd : (tasks.map Task.id).Nodup) (ht : t ∈ tasks) :
    tasks.find? (fun u => u.id = t.id) = some t := by
  induction tasks with
  | nil => cases ht
  | cons u rest ih =>
    rcases List.mem_cons.mp ht with rfl | ht2
    · rw [List.find?_cons_of_pos _ (by simp)]
    · rw [List.map_cons] at hnd
      by_cases hu : u.id = t.id
      · exfalso
        have h1 : t.id ∈ rest.map Task.id := List.mem_map_of_mem Task.id ht2
        have h2 := (List.nodup_cons.mp hnd).1
        rw [hu] at h2
        exact h2 h1
      · rw [List.find?_cons_of_neg _ (by simpa using hu)]
        exact ih (List.nodup_cons.mp hnd).2 ht2

theorem statusOf_eq_of_mem_nodup (w : Workflow) (t : Task)
    (hnd : (w.tasks.map Task.id).Nodup) (ht : t ∈ w.tasks) :
    statusOf w t.id = some t.status := by
  unfold statusOf
  rw [find?_id_of_mem_nodup w.tasks t hnd ht]
  rfl

/-- The task ids are unchanged by a worker run. -/
theorem executeTaskE_map_id (registry : AgentRegistry) (w : Workflow)
    (t : Task) :
    (executeTaskE registry w t).fst.tasks.map Task.id =
      w.tasks.map Task.id := by
  unfold executeTaskE
  cases workerOutcome registry
      (updateTask w { t with status := TaskStatus.running }) t with
  | error msg =>
    show (updateTask (updateTask w { t with status := TaskStatus.running })
      { t with status := TaskStatus.failed, error := some msg }).tasks.map
        Task.id = w.tasks.map Task.id
    rw [updateTask_map_id, updateTask_map_id]
  | ok result =>
    show (updateTask (updateTask w { t with status := TaskStatus.running })
      { t with status := TaskStatus.completed, result := result }).tasks.map
        Task.id = w.tasks.map Task.id
    rw [updateTask_map_id, updateTask_map_id]

/-- The final task id is unchanged by a worker run. -/
theorem executeTaskE_finalTaskId (registry : AgentRegistry) (w : Workflow)
    (t : Task) :
    (executeTaskE registry w t).fst.finalTaskId = w.finalTaskId := by
  unfold executeTaskE
  cases workerOutcome registry
    (updateTask w { t with status := TaskStatus.running }) t <;> rfl

/-- A worker run does not change the status of any other task id. -/
theorem executeTaskE_statusOf_ne (registry : AgentRegistry) (w : Workflow)
    (t : Task) (tid : String) (h : tid ≠ t.id) :
    statusOf (executeTaskE registry w t).fst tid = statusOf w tid := by
  unfold executeTaskE
  cases workerOutcome registry
      (updateTask w { t with status := TaskStatus.running }) t with
  | error msg =>
    show statusOf (updateTask (updateTask w { t with status := TaskStatus.running })
      { t with status := TaskStatus.failed, error := some msg }) tid =
      statusOf w tid
    rw [statusOf_updateTask_ne (updateTask w { t with status := TaskStatus.running })
        { t with status := TaskStatus.failed, error := some msg } tid h,
      statusOf_updateTask_ne w { t with status := TaskStatus.running } tid h]
  | ok result =>
    show statusOf (updateTask (updateTask w { t with status := TaskStatus.running })
      { t with status := TaskStatus.completed, result := result }) tid =
      statusOf w tid
    rw [statusOf_updateTask_ne (updateTask w { t with status := TaskStatus.running })
        { t with status := TaskStatus.completed, result := result } tid h,
      statusOf_updateTask_ne w { t with status := TaskStatus.running } tid h]

/-- After its worker runs, a task id that occurs in the workflow has
terminated. -/
theorem executeTaskE_finished_self (registry : AgentRegistry) (w : Workflow)
    (t : Task) (h : t.id ∈ w.tasks.map Task.id) :
    finishedAt (executeTaskE registry w t).fst t.id := by
  unfold executeTaskE
  cases workerOutcome registry
      (updateTask w { t with status := TaskStatus.running }) t with
  | error msg =>
    refine Or.inr ?_
    show statusOf (updateTask (updateTask w { t with status := TaskStatus.running })
      { t with status := TaskStatus.failed, error := some msg }) t.id =
      some TaskStatus.failed
    have hmem : t.id ∈ (updateTask w { t with status := TaskStatus.running
      }).tasks.map Task.id := by
      rw [updateTask_map_id]
      exact h
    exact statusOf_updateTask_self _ _ hmem
  | ok result =>
    refine Or.inl ?_
    show statusOf (updateTask (updateTask w { t with status := TaskStatus.running })
      { t with status := TaskStatus.completed, result := result }) t.id =
      some TaskStatus.completed
    have hmem : t.id ∈ (updateTask w { t with status := TaskStatus.running
      }).tasks.map Task.id := by
      rw [updateTask_map_id]
      exact h
    exact statusOf_updateTask_self _ _ hmem

/-- A worker run keeps every terminated task id terminated. -/
theorem executeTaskE_finished_mono (registry : AgentRegistry) (w : Workflow)
    (t : Task) (tid : String) (h : finishedAt w tid) :
    finishedAt (executeTaskE registry w t).fst tid := by
  by_cases hne : tid = t.id
  · subst hne
    have hmem : t.id ∈ w.tasks.map Task.id := by
      rcases h with h | h
      · exact mem_of_statusOf_some w t.id _ h
      · exact mem_of_statusOf_some w t.id _ h
    exact executeTaskE_finished_self registry w t hmem
  · rcases h with h | h
    · exact Or.inl ((executeTaskE_statusOf_ne registry w t tid hne).trans h)
    · exact Or.inr ((executeTaskE_statusOf_ne registry w t tid hne).trans h)

/-- The event emitted by a worker run snapshots the dependency statuses
of the task at the moment it starts. -/
theorem executeTaskE_event (registry : AgentRegistry) (w : Workflow)
    (t : Task) :
    (executeTaskE registry w t).snd =
      { taskId := t.id, depStatuses := depSnapshot w t } := by
  unfold executeTaskE
  cases workerOutcome registry
    (updateTask w { t with status := TaskStatus.running }) t <;> rfl

/-- The result and error maps after a worker run: either the error map
gains the task id and the task is Failed, or the result map gains the
task id and the task is Completed; the other map is untouched. -/
theorem executeTaskE_maps (registry : AgentRegistry) (w : Workflow)
    (t : Task) (hmem : t.id ∈ w.tasks.map Task.id) :
    ((executeTaskE registry w t).fst.results = w.results ∧
     (∃ msg, (executeTaskE registry w t).fst.errors =
        assocSet w.errors t.id msg) ∧
     statusOf (executeTaskE registry w t).fst t.id =
        some TaskStatus.failed) ∨
    ((executeTaskE registry w t).fst.errors = w.errors ∧
     (∃ r, (executeTaskE registry w t).fst.results =
        assocSet w.results t.id r) ∧
     statusOf (executeTaskE registry w t).fst t.id =
        some TaskStatus.completed) := by
  have hmem2 : t.id ∈ (updateTask w { t with status := TaskStatus.running
    }).tasks.map Task.id := by
    rw [updateTask_map_id]
    exact hmem
  unfold executeTaskE
  cases workerOutcome registry
      (updateTask w { t with status := TaskStatus.running }) t with
  | error msg =>
    left
    refine ⟨rfl, ⟨msg, rfl⟩, ?_⟩
    show statusOf (updateTask (updateTask w { t with status := TaskStatus.running })
      { t with status := TaskStatus.failed, error := some msg }) t.id =
      some TaskStatus.failed
    exact statusOf_updateTask_self _ _ hmem2
  | ok result =>
    right
    refine ⟨rfl, ⟨result, rfl⟩, ?_⟩
    show statusOf (updateTask (updateTask w { t with status := TaskStatus.running })
      { t with status := TaskStatus.completed, result := result }) t.id =
      some TaskStatus.completed
    exact statusOf_updateTask_self _ _ hmem2

end LlmAgent.Orchestration

namespace LlmAgent.Orchestration

/-- A well-formed run event: every dependency in the snapshot had
terminated (Completed or Failed) when the task started running. -/
def GoodEv (ev : RunEvent) : Prop :=
  ∀ p ∈ ev.depStatuses,
    p.snd = some TaskStatus.completed ∨ p.snd = some TaskStatus.failed

/-- The result and error maps only name terminated tasks, with the
matching status. -/
def ResultsInv (w : Workflow) : Prop :=
  (∀ k v, lookupAssoc w.results k = some v →
    statusOf w k = some TaskStatus.completed) ∧
  (∀ k v, lookupAssoc w.errors k = some v →
    statusOf w k = some TaskStatus.failed)

/-- A worker run preserves the result-map invariant when the task id
occurs in the workflow and has no recorded result or error yet. -/
theorem executeTaskE_resultsInv (registry : AgentRegistry) (w : Workflow)
    (t : Task) (hmem : t.id ∈ w.tasks.map Task.id)
    (hres : lookupAssoc w.results t.id = none)
    (herr : lookupAssoc w.errors t.id = none)
    (hinv : ResultsInv w) :
    ResultsInv (executeTaskE registry w t).fst := by
  rcases executeTaskE_maps registry w t hmem with
    ⟨hR, ⟨msg, hE⟩, hS⟩ | ⟨hE, ⟨r, hR⟩, hS⟩
  · constructor
    · intro k v hk
      rw [hR] at hk
      by_cases hkt : k = t.id
      · subst hkt
        rw [hres] at hk
        cases hk
      · rw [executeTaskE_statusOf_ne registry w t k hkt]
        exact hinv.1 k v hk
    · intro k v hk
      rw [hE] at hk
      by_cases hkt : k = t.id
      · subst hkt
        exact hS
      · rw [lookupAssoc_assocSet_ne _ _ _ _ hkt] at hk
        rw [executeTaskE_statusOf_ne registry w t k hkt]
        exact hinv.2 k v hk
  · constructor
    · intro k v hk
      rw [hR] at hk
      by_cases hkt : k = t.id
      · subst hkt
        exact hS
      · rw [lookupAssoc_assocSet_ne _ _ _ _ hkt] at hk
        rw [executeTaskE_statusOf_ne registry w t k hkt]
        exact hinv.1 k v hk
    · intro k v hk
      rw [hE] at hk
      by_cases hkt : k = t.id
      · subst hkt
        rw [herr] at hk
        cases hk
      · rw [executeTaskE_statusOf_ne registry w t k hkt]
        exact hinv.2 k v hk

/-- Batch run specification: ids and final task id are preserved,
termination of task ids is monotone, every signalled id has terminated,
and when every batch task occurred in the workflow with all of its
dependencies already terminated, every emitted event is well-formed. -/
theorem runReady_spec (registry : AgentRegistry) :
    ∀ (batch : List Task) (w : Workflow),
      (runReady registry w batch).fst.tasks.map Task.id =
        w.tasks.map Task.id ∧
      (runReady registry w batch).fst.finalTaskId = w.finalTaskId ∧
      (∀ tid, finishedAt w tid →
        finishedAt (runReady registry w batch).fst tid) ∧
      ((∀ t ∈ batch, t.id ∈ w.tasks.map Task.id) →
        ∀ tid ∈ (runReady registry w batch).snd.snd,
          finishedAt (runReady registry w batch).fst tid) ∧
      ((∀ t ∈ batch, t.id ∈ w.tasks.map Task.id) →
        (∀ t ∈ batch, ∀ d ∈ t.dependencies, finishedAt w d) →
        ∀ ev ∈ (runReady registry w batch).snd.fst, GoodEv ev) := by
  intro batch
  induction batch with
  | nil =>
    intro w
    refine ⟨rfl, rfl, fun tid h => h, ?_, ?_⟩
    · intro _ tid htid
      cases htid
    · intro _ _ ev hev
      cases hev
  | cons t rest ih =>
    intro w
    have ih1 := ih (executeTaskE registry w t).fst
    rw [runReady_cons]
    have hbatchids : (∀ u ∈ t :: rest, u.id ∈ w.tasks.map Task.id) →
        ∀ u ∈ rest, u.id ∈ (executeTaskE registry w t).fst.tasks.map Task.id := by
      intro hb u hu
      rw [executeTaskE_map_id]
      exact hb u (List.mem_cons_of_mem t hu)
    refine ⟨?_, ?_, ?_, ?_, ?_⟩
    · exact ih1.1.trans (executeTaskE_map_id registry w t)
    · exact ih1.2.1.trans (executeTaskE_finalTaskId registry w t)
    · intro tid h
      exact ih1.2.2.1 tid (executeTaskE_finished_mono registry w t tid h)
    · intro hb tid htid
      rcases List.mem_cons.mp htid with rfl | htid2
      · exact ih1.2.2.1 t.id
          (executeTaskE_finished_self registry w t (hb t (List.mem_cons_self t rest)))
      · exact ih1.2.2.2.1 (hbatchids hb) tid htid2
    · intro hb hdeps ev hev
      rcases List.mem_cons.mp hev with rfl | hev2
      · rw [executeTaskE_event]
        intro p hp
        rcases List.mem_map.mp hp with ⟨d, hd, hpd⟩
        rcases hdeps t (List.mem_cons_self t rest) d hd with h | h
        · rw [← hpd]
          exact Or.inl h
        · rw [← hpd]
          exact Or.inr h
      · refine ih1.2.2.2.2 (hbatchids hb) ?_ ev hev2
        intro u hu d hd
        exact executeTaskE_finished_mono registry w t d
          (hdeps u (List.mem_cons_of_mem t hu) d hd)

/-- Batch run preserves the result-map invariant when the batch ids are
distinct, occur in the workflow and carry no recorded result or error. -/
theorem runReady_resultsInv (registry : AgentRegistry) :
    ∀ (batch : List Task) (w : Workflow),
      (∀ t ∈ batch, t.id ∈ w.tasks.map Task.id) →
      (∀ t ∈ batch, lookupAssoc w.results t.id = none ∧
        lookupAssoc w.errors t.id = none) →
      (batch.map Task.id).Nodup →
      ResultsInv w →
      ResultsInv (runReady registry w batch).fst := by
  intro batch
  induction batch with
  | nil =>
    intro w _ _ _ hinv
    exact hinv
  | cons t rest ih =>
    intro w hmem hclean hbnd hinv
    rw [List.map_cons] at hbnd
    rw [runReady_cons]
    have hmt := hmem t (List.mem_cons_self t rest)
    have hct := hclean t (List.mem_cons_self t rest)
    have hne : ∀ u ∈ rest, u.id ≠ t.id := by
      intro u hu hEq
      have h1 : t.id ∈ rest.map Task.id := by
        rw [← hEq]
        exact List.mem_map_of_mem Task.id hu
      exact (List.nodup_cons.mp hbnd).1 h1
    rcases executeTaskE_maps registry w t hmt with
      ⟨hR, ⟨msg, hE⟩, _⟩ | ⟨hE, ⟨r, hR⟩, _⟩
    · apply ih
      · intro u hu
        rw [executeTaskE_map_id]
        exact hmem u (List.mem_cons_of_mem t hu)
      · intro u hu
        constructor
        · rw [hR]
          exact (hclean u (List.mem_cons_of_mem t hu)).1
        · rw [hE, lookupAssoc_assocSet_ne _ _ _ _ (hne u hu)]
          exact (hclean u (List.mem_cons_of_mem t hu)).2
      · exact (List.nodup_cons.mp hbnd).2
      · exact executeTaskE_resultsInv registry w t hmt hct.1 hct.2 hinv
    · apply ih
      · intro u hu
        rw [executeTaskE_map_id]
        exact hmem u (List.mem_cons_of_mem t hu)
      · intro u hu
        constructor
        · rw [hR, lookupAssoc_assocSet_ne _ _ _ _ (hne u hu)]
          exact (hclean u (List.mem_cons_of_mem t hu)).1
        · rw [hE]
          exact (hclean u (List.mem_cons_of_mem t hu)).2
      · exact (List.nodup_cons.mp hbnd).2
      · exact executeTaskE_resultsInv registry w t hmt hct.1 hct.2 hinv

end LlmAgent.Orchestration

namespace LlmAgent.Orchestration

/-- Every event in the trace of the coordinator loop is well-formed,
provided the completed set and the queued signals name only terminated
tasks and the prior trace is well-formed. -/
theorem stepSignals_good (registry : AgentRegistry) :
    ∀ (fuel : Nat) (st : SchedState) (signals : List String),
      (∀ tid ∈ st.completedTasks, finishedAt st.wf tid) →
      (∀ tid ∈ signals, finishedAt st.wf tid) →
      (∀ ev ∈ st.trace, GoodEv ev) →
      ∀ ev ∈ (stepSignals registry fuel st signals).trace, GoodEv ev := by
  intro fuel
  induction fuel with
  | zero =>
    intro st signals _ _ htr
    exact htr
  | succ fuel ih =>
    intro st signals hcomp hsig htr
    cases signals with
    | nil => exact htr
    | cons tid rest =>
      rw [stepSignals_cons]
      by_cases hfin : allFinished st.wf = true
      · rw [if_pos hfin]
        exact htr
      · rw [if_neg hfin]
        have hcomp2 : ∀ tid2 ∈ st.completedTasks ++ [tid],
            finishedAt st.wf tid2 := by
          intro tid2 h2
          rcases List.mem_append.mp h2 with h2 | h2
          · exact hcomp tid2 h2
          · rw [List.mem_singleton.mp h2]
            exact hsig tid (List.mem_cons_self tid rest)
        have hready : ∀ u ∈ readyTasks st.wf (st.completedTasks ++ [tid]),
            u.id ∈ st.wf.tasks.map Task.id := by
          intro u hu
          exact List.mem_map_of_mem Task.id (List.mem_filter.mp hu).1
        have hdeps : ∀ u ∈ readyTasks st.wf (st.completedTasks ++ [tid]),
            ∀ d ∈ u.dependencies, finishedAt st.wf d := by
          intro u hu d hd
          have hcond := (List.mem_filter.mp hu).2
          rw [Bool.and_eq_true] at hcond
          have hall := List.all_eq_true.mp hcond.2 d hd
          have hdmem : d ∈ st.completedTasks ++ [tid] := by
            simpa using hall
          exact hcomp2 d hdmem
        have hrr := runReady_spec registry
          (readyTasks st.wf (st.completedTasks ++ [tid])) st.wf
        apply ih
        · intro tid2 h2
          exact hrr.2.2.1 tid2 (hcomp2 tid2 h2)
        · intro tid2 h2
          rcases List.mem_append.mp h2 with h2 | h2
          · exact hrr.2.2.1 tid2 (hsig tid2 (List.mem_cons_of_mem tid h2))
          · exact hrr.2.2.2.1 hready tid2 h2
        · intro ev hev
          rcases List.mem_append.mp hev with hev | hev
          · exact htr ev hev
          · exact hrr.2.2.2.2 hready hdeps ev hev

/-- The coordinator loop preserves the task ids and the final task id. -/
theorem stepSignals_wf_ids (registry : AgentRegistry) :
    ∀ (fuel : Nat) (st : SchedState) (signals : List String),
      (stepSignals registry fuel st signals).wf.tasks.map Task.id =
        st.wf.tasks.map Task.id ∧
      (stepSignals registry fuel st signals).wf.finalTaskId =
        st.wf.finalTaskId := by
  intro fuel
  induction fuel with
  | zero =>
    intro st signals
    exact ⟨rfl, rfl⟩
  | succ fuel ih =>
    intro st signals
    cases signals with
    | nil => exact ⟨rfl, rfl⟩
    | cons tid rest =>
      rw [stepSignals_cons]
      by_cases hfin : allFinished st.wf = true
      · rw [if_pos hfin]
        exact ⟨rfl, rfl⟩
      · rw [if_neg hfin]
        have hrr := runReady_spec registry
          (readyTasks st.wf (st.completedTasks ++ [tid])) st.wf
        exact ⟨(ih _ _).1.trans hrr.1, (ih _ _).2.trans hrr.2.1⟩

/-- The coordinator loop preserves the result-map invariant. -/
theorem stepSignals_resultsInv (registry : AgentRegistry) :
    ∀ (fuel : Nat) (st : SchedState) (signals : List String),
      (st.wf.tasks.map Task.id).Nodup →
      ResultsInv st.wf →
      ResultsInv (stepSignals registry fuel st signals).wf := by
  intro fuel
  induction fuel with
  | zero =>
    intro st signals _ hinv
    exact hinv
  | succ fuel ih =>
    intro st signals hnd hinv
    cases signals with
    | nil => exact hinv
    | cons tid rest =>
      rw [stepSignals_cons]
      by_cases hfin : allFinished st.wf = true
      · rw [if_pos hfin]
        exact hinv
      · rw [if_neg hfin]
        have hready_mem : ∀ u ∈ readyTasks st.wf (st.completedTasks ++ [tid]),
            u.id ∈ st.wf.tasks.map Task.id := fun u hu =>
          List.mem_map_of_mem Task.id (List.mem_filter.mp hu).1
        have hready_clean : ∀ u ∈ readyTasks st.wf (st.completedTasks ++ [tid]),
            lookupAssoc st.wf.results u.id = none ∧
            lookupAssoc st.wf.errors u.id = none := by
          intro u hu
          have hu1 := (List.mem_filter.mp hu).1
          have hcond := (List.mem_filter.mp hu).2
          rw [Bool.and_eq_true] at hcond
          have hpstat : u.status = TaskStatus.pending := by
            simpa using hcond.1
          have hpend : statusOf st.wf u.id = some TaskStatus.pending := by
            rw [statusOf_eq_of_mem_nodup st.wf u hnd hu1, hpstat]
          constructor
          · rcases hx : lookupAssoc st.wf.results u.id with _ | v
            · rfl
            · have hc := hinv.1 u.id v hx
              rw [hpend] at hc
              simp at hc
          · rcases hx : lookupAssoc st.wf.errors u.id with _ | v
            · rfl
            · have hc := hinv.2 u.id v hx
              rw [hpend] at hc
              simp at hc
        have hbnodup : ((readyTasks st.wf
            (st.completedTasks ++ [tid])).map Task.id).Nodup :=
          List.Nodup.sublist (List.Sublist.map Task.id (List.filter_sublist _)) hnd
        apply ih
        · show ((runReady registry st.wf
            (readyTasks st.wf (st.completedTasks ++ [tid]))).fst.tasks.map
              Task.id).Nodup
          rw [(runReady_spec registry _ st.wf).1]
          exact hnd
        · exact runReady_resultsInv registry _ st.wf hready_mem hready_clean
            hbnodup hinv

/-- The final task id survives the whole run. -/
theorem executeWorkflowRun_finalTaskId (registry : AgentRegistry)
    (wf : Workflow) (fuel : Nat) :
    (executeWorkflowRun registry wf fuel).wf.finalTaskId = wf.finalTaskId := by
  rw [executeWorkflowRun_eq]
  exact (stepSignals_wf_ids registry fuel _ _).2.trans
    (runReady_spec registry _ wf).2.1

end LlmAgent.Orchestration

namespace LlmAgent

open Orchestration

/-- C1 amended: whenever a task transitions to Running in the modelled
schedule, every declared dependency has terminated, that is, its status
at that moment is Completed or Failed (not necessarily Completed: the
coordinator marks Failed tasks in the completed set as well, so a task
with Failed dependencies still runs, with the failed dependencies simply
contributing no result to its input). -/
theorem workflow_deps_terminated_at_run (registry : AgentRegistry)
    (wf : Workflow) (fuel : Nat) (ev : RunEvent)
    (p : String × Option TaskStatus)
    (hev : ev ∈ (executeWorkflowRun registry wf fuel).trace)
    (hp : p ∈ ev.depStatuses) :
    p.snd = some TaskStatus.completed ∨ p.snd = some TaskStatus.failed := by
  rw [executeWorkflowRun_eq] at hev
  have hbatch : ∀ t ∈ wf.tasks.filter (fun t => t.dependencies.isEmpty),
      t.id ∈ wf.tasks.map Task.id := fun t ht =>
    List.mem_map_of_mem Task.id (List.mem_filter.mp ht).1
  have hdeps : ∀ t ∈ wf.tasks.filter (fun t => t.dependencies.isEmpty),
      ∀ d ∈ t.dependencies, finishedAt wf d := by
    intro t ht d hd
    have hemp := (List.mem_filter.mp ht).2
    have h0 : t.dependencies = [] := by simpa using hemp
    rw [h0] at hd
    cases hd
  have hrr := runReady_spec registry
    (wf.tasks.filter (fun t => t.dependencies.isEmpty)) wf
  have hgood := stepSignals_good registry fuel
    { wf := (runReady registry wf
        (wf.tasks.filter (fun t => t.dependencies.isEmpty))).fst,
      completedTasks := [],
      trace := (runReady registry wf
        (wf.tasks.filter (fun t => t.dependencies.isEmpty))).snd.fst }
    (runReady registry wf
      (wf.tasks.filter (fun t => t.dependencies.isEmpty))).snd.snd
    (by intro tid h; cases h)
    (by intro tid h; exact hrr.2.2.2.1 hbatch tid h)
    (by intro ev2 hev2; exact hrr.2.2.2.2 hbatch hdeps ev2 hev2)
  exact hgood ev hev p hp

/-- Witness for C1 amended: in the failed-dependency example, the event
that starts t2 records its dependency t1 with the terminated status
Failed. -/
theorem workflow_deps_terminated_at_run_witness :
    (RunEvent.mk "t2" [("t1", some TaskStatus.failed)]) ∈
      (executeWorkflowRun exRegistry exWorkflow 8).trace ∧
    (("t1", some TaskStatus.failed) : String × Option TaskStatus) ∈
      (RunEvent.mk "t2" [("t1", some TaskStatus.failed)]).depStatuses ∧
    ((("t1", some TaskStatus.failed) : String × Option TaskStatus).snd =
        some TaskStatus.completed ∨
      (("t1", some TaskStatus.failed) : String × Option TaskStatus).snd =
        some TaskStatus.failed) :=
  ⟨by decide, by decide,
   workflow_deps_terminated_at_run exRegistry exWorkflow 8
     (RunEvent.mk "t2" [("t1", some TaskStatus.failed)])
     ("t1", some TaskStatus.failed) (by decide) (by decide)⟩

/-- C7 amended: there is no deadlock detection and no WorkflowStalled
error: when the coordinator reaches quiescence with the final task still
Pending (for example a dependency id no task carries), the loop simply
ends and ExecuteWorkflow returns the plain final-task-result-not-found
error, with no per-pending-task reasons recorded; and a final task whose
dependency Failed is not left Pending at all, but runs and delivers its
own outcome. -/
theorem workflow_pending_final_not_found (registry : AgentRegistry)
    (wf : Workflow) (fuel : Nat)
    (hnd : (wf.tasks.map Task.id).Nodup)
    (hres0 : wf.results = [])
    (herr0 : wf.errors = [])
    (hfin : wf.finalTaskId ≠ "")
    (hstill : statusOf (executeWorkflowRun registry wf fuel).wf
      wf.finalTaskId = some TaskStatus.pending) :
    executeWorkflow registry wf fuel =
      .error "final task result not found" := by
  have hbatch : ∀ t ∈ wf.tasks.filter (fun t => t.dependencies.isEmpty),
      t.id ∈ wf.tasks.map Task.id := fun t ht =>
    List.mem_map_of_mem Task.id (List.mem_filter.mp ht).1
  have hclean : ∀ t ∈ wf.tasks.filter (fun t => t.dependencies.isEmpty),
      lookupAssoc wf.results t.id = none ∧
      lookupAssoc wf.errors t.id = none := by
    intro t _
    rw [hres0, herr0]
    exact ⟨rfl, rfl⟩
  have hbnd : ((wf.tasks.filter
      (fun t => t.dependencies.isEmpty)).map Task.id).Nodup :=
    List.Nodup.sublist (List.Sublist.map Task.id (List.filter_sublist _)) hnd
  have hinv0 : ResultsInv wf := by
    constructor
    · intro k v hk
      rw [hres0] at hk
      cases hk
    · intro k v hk
      rw [herr0] at hk
      cases hk
  have hrr := runReady_spec registry
    (wf.tasks.filter (fun t => t.dependencies.isEmpty)) wf
  have hinv1 : ResultsInv (executeWorkflowRun registry wf fuel).wf := by
    rw [executeWorkflowRun_eq]
    apply stepSignals_resultsInv
    · show ((runReady registry wf
        (wf.tasks.filter (fun t => t.dependencies.isEmpty))).fst.tasks.map
          Task.id).Nodup
      rw [hrr.1]
      exact hnd
    · exact runReady_resultsInv registry _ wf hbatch hclean hbnd hinv0
  have hrNone : lookupAssoc (executeWorkflowRun registry wf fuel).wf.results
      wf.finalTaskId = none := by
    rcases hx : lookupAssoc (executeWorkflowRun registry wf fuel).wf.results
        wf.finalTaskId with _ | v
    · rfl
    · have hc := hinv1.1 _ v hx
      rw [hstill] at hc
      simp at hc
  have heNone : lookupAssoc (executeWorkflowRun registry wf fuel).wf.errors
      wf.finalTaskId = none := by
    rcases hx : lookupAssoc (executeWorkflowRun registry wf fuel).wf.errors
        wf.finalTaskId with _ | v
    · rfl
    · have hc := hinv1.2 _ v hx
      rw [hstill] at hc
      simp at hc
  have hfin2 : (executeWorkflowRun registry wf fuel).wf.finalTaskId ≠ "" := by
    rw [executeWorkflowRun_finalTaskId]
    exact hfin
  unfold executeWorkflow
  rw [if_pos hfin2, executeWorkflowRun_finalTaskId]
  simp only [heNone, hrNone]

/-- Witness for C7 amended at the dangling-dependency workflow. -/
theorem workflow_pending_final_not_found_witness :
    (danglingWorkflow.tasks.map Orchestration.Task.id).Nodup ∧
    danglingWorkflow.results = [] ∧
    danglingWorkflow.errors = [] ∧
    danglingWorkflow.finalTaskId ≠ "" ∧
    statusOf (executeWorkflowRun exRegistry danglingWorkflow 8).wf
      danglingWorkflow.finalTaskId = some TaskStatus.pending ∧
    executeWorkflow exRegistry danglingWorkflow 8 =
      .error "final task result not found" :=
  ⟨by decide, rfl, rfl, by decide, by decide,
   workflow_pending_final_not_found exRegistry danglingWorkflow 8 (by decide)
     rfl rfl (by decide) (by decide)⟩

end LlmAgent
